import Mathlib

/-!
Verification of the WebGPU glTF scene renderer core: the cache-key
canonicalization (`JSON.stringify` of descriptor values), the instanced
geometry batcher (`GLTFScene.build` / `setInstancePosForPrimitiveNodes` /
`updateBuffers`), the render-order builder and the frame replay
(`GLTFScene.render`), and the primitive parsing step of
`GLTFLoaderV2.load`.

The embedding mirrors `src/tools/loaders/GLTFLoader-v2/index.ts`:
JavaScript values used as cache keys become the inductive `JVal`, the
`Float32Array` staging/GPU buffers become functions `Nat → Int` (each
cell one 32-bit float slot; writes copy values exactly, so the scalar
type is immaterial), JavaScript `Map`s become association lists that
preserve key-insertion order, and thrown exceptions become
`Except.error`.
-/

set_option autoImplicit false

namespace GLTF

/-! ## JavaScript values and `JSON.stringify`

The source keys every cache on `JSON.stringify` of a descriptor value:
`JSON.stringify(primitive)` for instance groups (line 502),
`JSON.stringify(a_primitive.a_material?.__json)` for materials
(line 552) and `JSON.stringify({...args, shaderContext})` for
pipelines (line 571).  `JVal` models the JavaScript values fed to it,
including `undefined` fields, and `stringify` models `JSON.stringify`:
object fields keep insertion order, fields whose value is `undefined`
are dropped, an `undefined` array element prints as `null`, and
stringifying `undefined` itself returns `undefined` (`none`). -/

mutual
inductive JVal : Type where
  | jnull : JVal
  | jundef : JVal
  | jbool : Bool → JVal
  | jnum : Int → JVal
  | jstr : String → JVal
  | jarr : JArr → JVal
  | jobj : JObj → JVal
deriving DecidableEq

inductive JArr : Type where
  | nil : JArr
  | cons : JVal → JArr → JArr
deriving DecidableEq

inductive JObj : Type where
  | nil : JObj
  | cons : String → JVal → JObj → JObj
deriving DecidableEq
end

def quoteJ (s : String) : String := "\"" ++ s ++ "\""

mutual
def stringify : JVal → Option String
  | .jnull => some "null"
  | .jundef => none
  | .jbool b => some (if b then "true" else "false")
  | .jnum n => some (toString n)
  | .jstr s => some (quoteJ s)
  | .jarr es => some ("[" ++ String.intercalate "," (stringifyArr es) ++ "]")
  | .jobj fs => some ("\x7b" ++ String.intercalate "," (stringifyObj fs) ++ "\x7d")

def stringifyArr : JArr → List String
  | .nil => []
  | .cons v t => (stringify v).getD "null" :: stringifyArr t

def stringifyObj : JObj → List String
  | .nil => []
  | .cons k v t =>
    match stringify v with
    | none => stringifyObj t
    | some s => (quoteJ k ++ ":" ++ s) :: stringifyObj t
end

/-! ## Structural equality up to field order (the spec's notion)

`norm` recursively drops object fields explicitly set to `undefined`
and sorts the remaining fields by key, so `structEqUpToOrder` captures
"structurally equal up to field insertion order, treating fields
explicitly set to undefined as equal to absent fields". -/

def charsLe : List Char → List Char → Bool
  | [], _ => true
  | _ :: _, [] => false
  | a :: as, b :: bs =>
    if a.toNat < b.toNat then true
    else if b.toNat < a.toNat then false
    else charsLe as bs

/-- Lexicographic order on strings by character code, used only to pick
a canonical field order for the spec-side structural equality. -/
def strLe (a b : String) : Bool := charsLe a.data b.data

def insObj (k : String) (v : JVal) : JObj → JObj
  | .nil => .cons k v .nil
  | .cons k1 v1 t =>
    if strLe k k1 then .cons k v (.cons k1 v1 t) else .cons k1 v1 (insObj k v t)

def sortObj : JObj → JObj
  | .nil => .nil
  | .cons k v t => insObj k v (sortObj t)

mutual
def norm : JVal → JVal
  | .jarr es => .jarr (normArr es)
  | .jobj fs => .jobj (sortObj (normObj fs))
  | v => v

def normArr : JArr → JArr
  | .nil => .nil
  | .cons v t => .cons (norm v) (normArr t)

def normObj : JObj → JObj
  | .nil => .nil
  | .cons k v t =>
    match v with
    | .jundef => normObj t
    | v => .cons k (norm v) (normObj t)
end

def structEqUpToOrder (a b : JVal) : Prop := norm a = norm b

instance (a b : JVal) : Decidable (structEqUpToOrder a b) := by
  unfold structEqUpToOrder; infer_instance

/-! `dropU` removes object fields explicitly set to `undefined` but keeps
field order: `dropU a = dropU b` is structural equality with the same
field insertion order, treating explicit `undefined` as absent. -/

mutual
def dropU : JVal → JVal
  | .jarr es => .jarr (dropUArr es)
  | .jobj fs => .jobj (dropUObj fs)
  | v => v

def dropUArr : JArr → JArr
  | .nil => .nil
  | .cons v t => .cons (dropU v) (dropUArr t)

def dropUObj : JObj → JObj
  | .nil => .nil
  | .cons k v t =>
    match v with
    | .jundef => dropUObj t
    | v => .cons k (dropU v) (dropUObj t)
end

mutual
theorem stringify_dropU : ∀ v : JVal, stringify (dropU v) = stringify v
  | .jnull => rfl
  | .jundef => rfl
  | .jbool _ => rfl
  | .jnum _ => rfl
  | .jstr _ => rfl
  | .jarr es => by simp only [dropU, stringify, stringifyArr_dropU es]
  | .jobj fs => by simp only [dropU, stringify, stringifyObj_dropU fs]

theorem stringifyArr_dropU : ∀ es : JArr, stringifyArr (dropUArr es) = stringifyArr es
  | .nil => rfl
  | .cons v t => by
    simp only [dropUArr, stringifyArr, stringify_dropU v, stringifyArr_dropU t]

theorem stringifyObj_dropU : ∀ fs : JObj, stringifyObj (dropUObj fs) = stringifyObj fs
  | .nil => rfl
  | .cons k v t => by
    cases v with
    | jundef => simp only [dropUObj, stringifyObj, stringify, stringifyObj_dropU t]
    | jnull =>
      simp only [dropUObj, stringifyObj, stringify_dropU, stringifyObj_dropU t]
    | jbool b =>
      simp only [dropUObj, stringifyObj, stringify_dropU, stringifyObj_dropU t]
    | jnum n =>
      simp only [dropUObj, stringifyObj, stringify_dropU, stringifyObj_dropU t]
    | jstr s =>
      simp only [dropUObj, stringifyObj, stringify_dropU, stringifyObj_dropU t]
    | jarr es =>
      simp only [dropUObj, stringifyObj, stringify_dropU, stringifyObj_dropU t]
    | jobj fs2 =>
      simp only [dropUObj, stringifyObj, stringify_dropU, stringifyObj_dropU t]
end

/-! ## Scene data model

A node's transform exposes `worldMatrix` and `worldNormalMatrix`, each a
4x4 matrix of 16 float slots.  `GPrimitive` embeds a `GLTFPrimitive`
together with the value data its `build(options)` call returns
(`args`, the vertex/fragment shader contexts, the vertex-buffer
accessor list, indices and vertex count), which the batcher treats as
opaque values.  `json` is the raw glTF primitive JSON (`__json`), and
`material` the raw material JSON (`a_material?.__json`). -/

def Buf : Type := Nat → Int

structure Transform : Type where
  worldMatrix : Fin 16 → Int
  worldNormalMatrix : Fin 16 → Int

structure GPrimitive : Type where
  json : JVal
  material : Option JVal
  args : JObj
  vertexCtx : JVal
  fragmentCtx : JVal
  nbuffers : Nat
  indices : Option Nat
  vertexCount : Nat
deriving DecidableEq

mutual
inductive GNode : Type where
  | mk : Option (List GPrimitive) → Transform → GNodeList → GNode

inductive GNodeList : Type where
  | nil : GNodeList
  | cons : GNode → GNodeList → GNodeList
end

/-- Group key of a primitive: `JSON.stringify(primitive.__json)` (the
first traversal stringifies the raw primitive object itself, line 502;
`setInstancePosForPrimitiveNodes` stringifies `primitive.__json`,
line 652 — the same JSON value). -/
def primKey (p : GPrimitive) : Option String := stringify p.json

/-- Material cache key: `JSON.stringify(a_primitive.a_material?.__json)`. -/
def materialKey (p : GPrimitive) : Option String :=
  stringify (p.material.getD .jundef)

def JObj.append : JObj → JObj → JObj
  | .nil, o => o
  | .cons k v t, o => .cons k v (JObj.append t o)

/-- Pipeline cache key:
`JSON.stringify({...args, shaderContext: {vertex, fragment}})`. -/
def pipelineKey (p : GPrimitive) : Option String :=
  stringify (.jobj (JObj.append p.args
    (.cons "shaderContext"
      (.jobj (.cons "vertex" p.vertexCtx (.cons "fragment" p.fragmentCtx .nil))) .nil)))

/-! ## First pass: depth-first traversal collecting (primitive, transform) pairs

`GLTFScene.traverse` visits each root child and recursively each node
before its children; for each node with a mesh it appends the node's
transform under each of the mesh's primitives (lines 498-511). -/

mutual
def nodePairs : GNode → List (GPrimitive × Transform)
  | .mk mesh t cs =>
    (match mesh with
     | some prims => prims.map fun p => (p, t)
     | none => []) ++ nodeListPairs cs

def nodeListPairs : GNodeList → List (GPrimitive × Transform)
  | .nil => []
  | .cons h t => nodePairs h ++ nodeListPairs t
end

/-- Generic association lookup mirroring a JavaScript `Map.get`. -/
def alookup {K V : Type} [DecidableEq K] (k : K) : List (K × V) → Option V
  | [] => none
  | kv :: rest => if kv.1 = k then some kv.2 else alookup k rest

/-- One `Map.get`-or-create-then-push step of the first traversal:
a new key is appended at the end (insertion order), an existing key's
transform list is extended in place. -/
def insertPair (k : Option String) (t : Transform) :
    List (Option String × List Transform) → List (Option String × List Transform)
  | [] => [(k, [t])]
  | (k1, ts) :: rest =>
    if k1 = k then (k1, ts ++ [t]) :: rest else (k1, ts) :: insertPair k t rest

/-- The `primitiveNodesMap` after the first traversal. -/
def buildGroups (ps : List (Option String × Transform)) :
    List (Option String × List Transform) :=
  ps.foldl (fun m kt => insertPair kt.1 kt.2 m) []

/-! ## Instance-buffer writes

`primitiveInstances.arrayBuffer.set(nodes[i].worldMatrix, (first+i)*32)`
and `...set(nodes[i].worldNormalMatrix, (first+i)*32+16)`
(lines 656-663): instance `first+i` occupies the 32-float block starting
at float offset `32*(first+i)`. -/

def writeMat (b : Buf) (off : Nat) (m : Fin 16 → Int) : Buf :=
  fun j => if h : off ≤ j ∧ j < off + 16 then m ⟨j - off, by omega⟩ else b j

def writeBlock (b : Buf) (first : Nat) (t : Transform) : Buf :=
  writeMat (writeMat b (32 * first) t.worldMatrix) (32 * first + 16) t.worldNormalMatrix

def writeGroup (b : Buf) (first : Nat) : List Transform → Buf
  | [] => b
  | t :: ts => writeGroup (writeBlock b first t) (first + 1) ts

/-- `setInstancePosForPrimitiveNodes` (lines 646-666): look the
primitive's group up by key (a miss makes `nodes.length` throw a
`TypeError`), write each node's matrices into the next contiguous block
range (an out-of-bounds `TypedArray.set` throws a `RangeError`),
advance the running offset, and return `{first, count}`. -/
def setInstancePosForPrimitiveNodes (total : Nat)
    (matrices : List (Option String × List Transform))
    (p : GPrimitive) (offset : Nat) (b : Buf) :
    Except String ((Nat × Nat) × Nat × Buf) :=
  match alookup (primKey p) matrices with
  | none => .error "TypeError: nodes is undefined"
  | some nodes =>
    let first := offset
    let count := nodes.length
    if count = 0 ∨ first + count ≤ total then
      .ok ((first, count), first + count, writeGroup b first nodes)
    else .error "RangeError: offset is out of bounds"

/-! ## Second pass: render-order construction (lines 533-620) -/

structure RenderPrim : Type where
  nbuffers : Nat
  indices : Option Nat
  vertexCount : Nat
  first : Nat
  count : Nat
deriving DecidableEq

/-- One entry of `materialPrimitivesMap`; the key is the identity of the
`RenderNode` material object created for a material cache key (fresh
identities are numbered by a monotone counter across builds). -/
structure MatEntry : Type where
  matId : Nat
  prims : List RenderPrim
deriving DecidableEq

/-- One entry of `this.renderPipelines` (a `Map` keyed by the pipeline
cache key, preserved across builds because the constructor creates it
once and `build` never clears it). -/
structure PipeEntry : Type where
  key : Option String
  mats : List MatEntry
deriving DecidableEq

/-- Append `rp` to the primitive list of material `mid`, creating the
material's entry at the end on first use (JavaScript `Map` semantics). -/
def pushPrim (mid : Nat) (rp : RenderPrim) : List MatEntry → List MatEntry
  | [] => [⟨mid, [rp]⟩]
  | e :: rest =>
    if e.matId = mid then ⟨e.matId, e.prims ++ [rp]⟩ :: rest
    else e :: pushPrim mid rp rest

/-- Find or create the pipeline entry for key `k` and push `rp` under
material `mid` there. -/
def pushToPipeline (k : Option String) (mid : Nat) (rp : RenderPrim) :
    List PipeEntry → List PipeEntry
  | [] => [⟨k, pushPrim mid rp []⟩]
  | e :: rest =>
    if e.key = k then ⟨e.key, pushPrim mid rp e.mats⟩ :: rest
    else e :: pushToPipeline k mid rp rest

def mkRenderPrim (p : GPrimitive) (fc : Nat × Nat) : RenderPrim :=
  { nbuffers := p.nbuffers, indices := p.indices, vertexCount := p.vertexCount,
    first := fc.1, count := fc.2 }

/-- State threaded through the mesh pass of `build`:
the per-build `materialCache`, the fresh-object counter for material
`RenderNode` identities, the persistent `renderPipelines`, the running
instance offset and the mapped instance buffer being written. -/
structure Pass2State : Type where
  materialCache : List (Option String × Nat)
  nextMatId : Nat
  renderPipelines : List PipeEntry
  offset : Nat
  buf : Buf

/-- The material-cache step of one mesh-pass iteration: return the
material's `RenderNode` identity, the updated per-build cache and the
updated fresh-identity counter (`device.createBindGroup` makes a fresh
object only on a cache miss, lines 553-568). -/
def matStepLookup (p : GPrimitive) (s : Pass2State) :
    Nat × List (Option String × Nat) × Nat :=
  match alookup (materialKey p) s.materialCache with
  | some mid => (mid, s.materialCache, s.nextMatId)
  | none => (s.nextMatId, s.materialCache ++ [(materialKey p, s.nextMatId)], s.nextMatId + 1)

/-- One iteration of the mesh pass (lines 541-619): destructuring
`a_primitive.build(options)!` throws when the primitive has no material
(its `build` returns `undefined`, line 896); otherwise look up or
create the material entry, look up or create the pipeline entry, and
push the draw record with its `instanceInAll` range. -/
def buildStep (total : Nat) (matrices : List (Option String × List Transform))
    (p : GPrimitive) (s : Pass2State) : Except String (Pass2State × (Nat × Nat)) :=
  if p.material.isSome then
    let acc := matStepLookup p s
    match setInstancePosForPrimitiveNodes total matrices p s.offset s.buf with
    | .error e => .error e
    | .ok (fc, off2, b2) =>
      .ok ({ materialCache := acc.2.1, nextMatId := acc.2.2,
             renderPipelines :=
               pushToPipeline (pipelineKey p) acc.1 (mkRenderPrim p fc) s.renderPipelines,
             offset := off2, buf := b2 }, fc)
  else .error "TypeError: cannot destructure build result of undefined"

/-- The mesh pass over the flattened primitive list, also returning the
sequence of `{first, count}` ranges it assigned (in visit order). -/
def buildLoop (total : Nat) (matrices : List (Option String × List Transform)) :
    List GPrimitive → Pass2State → Except String (Pass2State × List (Nat × Nat))
  | [], s => .ok (s, [])
  | p :: ps, s =>
    match buildStep total matrices p s with
    | .error e => .error e
    | .ok (s2, fc) =>
      match buildLoop total matrices ps s2 with
      | .error e => .error e
      | .ok (s3, rs) => .ok (s3, fc :: rs)

/-- The scene state before/after `build`.  `arrayBuffer` is the CPU
staging array (`primitiveInstances.arrayBuffer`), `gpuContents` the
contents of the GPU `instanceBuffer`, `bufferBytes` its byte size. -/
structure GLTFSceneState : Type where
  renderPipelines : List PipeEntry
  nextMatId : Nat
  matrices : List (Option String × List Transform)
  total : Nat
  offset : Nat
  arrayBuffer : Buf
  gpuContents : Buf
  bufferBytes : Nat

/-- The constructor state: `renderPipelines` empty, nothing built yet. -/
def initialState : GLTFSceneState :=
  { renderPipelines := [], nextMatId := 0, matrices := [], total := 0, offset := 0,
    arrayBuffer := fun _ => 0, gpuContents := fun _ => 0, bufferBytes := 0 }

/-- `GLTFScene.build` (lines 465-631): traverse the node tree grouping
transforms by primitive key; create the instance buffer of
`16 * 2 * 4 * total` bytes mapped at creation (all zeros); run the mesh
pass writing transform blocks into the mapped buffer and building the
render order; unmap; finally reset `offset` to 0 and replace the
staging `arrayBuffer` by a fresh zeroed array of the same length. -/
def build (meshes : List (List GPrimitive)) (roots : GNodeList)
    (st : GLTFSceneState) : Except String (GLTFSceneState × List (Nat × Nat)) :=
  let pairs := nodeListPairs roots
  let matrices := buildGroups (pairs.map fun pt => (primKey pt.1, pt.2))
  let total := pairs.length
  match buildLoop total matrices meshes.flatten
      { materialCache := [], nextMatId := st.nextMatId,
        renderPipelines := st.renderPipelines, offset := 0, buf := fun _ => 0 } with
  | .error e => .error e
  | .ok (s, rs) =>
    .ok ({ renderPipelines := s.renderPipelines, nextMatId := s.nextMatId,
           matrices := matrices, total := total, offset := 0,
           arrayBuffer := fun _ => 0, gpuContents := s.buf,
           bufferBytes := 16 * 2 * 4 * total }, rs)

/-- The refresh loop of `updateBuffers`, also returning the ranges the
`setInstancePosForPrimitiveNodes` calls produced (in visit order). -/
def updLoop (total : Nat) (matrices : List (Option String × List Transform)) :
    List GPrimitive → Nat → Buf → Except String ((Nat × Buf) × List (Nat × Nat))
  | [], off, b => .ok ((off, b), [])
  | p :: ps, off, b =>
    match setInstancePosForPrimitiveNodes total matrices p off b with
    | .error e => .error e
    | .ok (fc, off2, b2) =>
      match updLoop total matrices ps off2 b2 with
      | .error e => .error e
      | .ok (ob, rs) => .ok (ob, fc :: rs)

/-- `GLTFScene.updateBuffers` (lines 668-683): reset the offset, re-walk
every mesh primitive re-writing its group's blocks into the staging
array, then upload the whole staging array to the GPU buffer at
offset 0 (`device.queue.writeBuffer(this.instanceBuffer, 0, ...)`). -/
def updateBuffers (meshes : List (List GPrimitive)) (st : GLTFSceneState) :
    Except String (GLTFSceneState × List (Nat × Nat)) :=
  match updLoop st.total st.matrices meshes.flatten 0 st.arrayBuffer with
  | .error e => .error e
  | .ok ((off, b), rs) =>
    .ok ({ st with offset := off, arrayBuffer := b, gpuContents := b }, rs)

/-! ## Frame replay (`GLTFScene.render`, lines 686-728) -/

inductive Cmd : Type where
  | bindInstanceGroup : Cmd
  | setPipeline : Option String → Cmd
  | setMaterialGroup : Nat → Cmd
  | setVertexBuffer : Nat → Cmd
  | setIndexBuffer : Cmd
  | drawIndexed : Nat → Nat → Nat → Cmd
  | draw : Nat → Nat → Nat → Cmd
deriving DecidableEq

/-- Commands a draw entry issues: one `setVertexBuffer` per buffer
accessor, then `drawIndexed(indices.count, count, 0, 0, first)` after a
`setIndexBuffer` when indexed, else `draw(vertexCount, count, 0, first)`. -/
def primCmds (rp : RenderPrim) : List Cmd :=
  (List.range rp.nbuffers).map .setVertexBuffer ++
    match rp.indices with
    | some ic => [.setIndexBuffer, .drawIndexed ic rp.count rp.first]
    | none => [.draw rp.vertexCount rp.count rp.first]

def matCmds (m : MatEntry) : List Cmd :=
  .setMaterialGroup m.matId :: (m.prims.map primCmds).flatten

def pipeCmds (e : PipeEntry) : List Cmd :=
  .setPipeline e.key :: (e.mats.map matCmds).flatten

/-- `GLTFScene.render`: bind the instance bind group once, then for each
pipeline entry set the pipeline once and for each of its material
entries set the material bind group once and replay its draw entries. -/
def render (st : GLTFSceneState) : List Cmd :=
  .bindInstanceGroup :: (st.renderPipelines.map pipeCmds).flatten

/-! ## Specification-side helpers for the batching theorems -/

/-- Number of node references in the group a primitive's key selects. -/
def countOf (matrices : List (Option String × List Transform)) (p : GPrimitive) : Nat :=
  ((alookup (primKey p) matrices).getD []).length

def sumCounts (matrices : List (Option String × List Transform))
    (ps : List GPrimitive) : Nat :=
  (ps.map (countOf matrices)).sum

/-- The `{first, count}` sequence the mesh pass assigns: consecutive
ranges advancing a running offset by each group's size. -/
def rangesFrom (matrices : List (Option String × List Transform)) :
    List GPrimitive → Nat → List (Nat × Nat)
  | [], _ => []
  | p :: ps, off => (off, countOf matrices p) :: rangesFrom matrices ps (off + countOf matrices p)

/-- The group map the first traversal of `build` produces for a node tree. -/
def sceneGroups (roots : GNodeList) : List (Option String × List Transform) :=
  buildGroups ((nodeListPairs roots).map fun pt => (primKey pt.1, pt.2))

/-- `rp` is recorded in the render order under pipeline key `ks` and the
material object identified by `mid`. -/
def placedIn (l : List PipeEntry) (ks : Option String) (mid : Nat) (rp : RenderPrim) : Prop :=
  ∃ e ∈ l, e.key = ks ∧ ∃ m ∈ e.mats, m.matId = mid ∧ rp ∈ m.prims

/-- Well-formedness of a render order: pipeline keys occur once and
material identities occur once within each pipeline entry (what
JavaScript `Map` key uniqueness gives the source). -/
def RPInv (l : List PipeEntry) : Prop :=
  (l.map PipeEntry.key).Nodup ∧ ∀ e ∈ l, (e.mats.map MatEntry.matId).Nodup

def isSetPipelineCmd : Cmd → Bool
  | .setPipeline _ => true
  | _ => false

def isSetMaterialCmd : Cmd → Bool
  | .setMaterialGroup _ => true
  | _ => false

def isDrawCmd : Cmd → Bool
  | .draw _ _ _ => true
  | .drawIndexed _ _ _ => true
  | _ => false

/-- The draw call a render-order entry must produce, per the spec: "issue
an indexed or non-indexed instanced draw using the entry's
`{first, count}` as the instance range". -/
def drawOfEntry (rp : RenderPrim) : Cmd :=
  match rp.indices with
  | some ic => .drawIndexed ic rp.count rp.first
  | none => .draw rp.vertexCount rp.count rp.first

/-- Spec-side description of all draws of a frame: for each pipeline
entry, for each of its material entries, one instanced draw per draw
entry carrying exactly that entry's `{first, count}`. -/
def renderDrawsSpec (st : GLTFSceneState) : List Cmd :=
  (st.renderPipelines.map fun e =>
    (e.mats.map fun m => m.prims.map drawOfEntry).flatten).flatten

/-! ## Loader primitive parsing (`GLTFLoaderV2.load`, lines 350-386)

`shaderLoc` stands for the external `ShaderLocation` table
(`Reflect.get(ShaderLocation, attributeKey)`), `accessorCount` for
`accessors[i].count`; both are collaborator data the loader consumes. -/

structure RawPrimitive : Type where
  mode : Option Nat
  attributes : List (String × Nat)
  indices : Option Nat
  material : Option Nat
deriving DecidableEq

structure RawMesh : Type where
  primitives : List RawPrimitive
deriving DecidableEq

structure ParsedAttr : Type where
  name : String
  shaderLocation : Nat
  accessor : Nat
deriving DecidableEq

structure ParsedPrim : Type where
  topology : Nat
  attrs : List ParsedAttr
  vertexCount : Nat
deriving DecidableEq

/-- `topology in GLTFRenderMode`: the numeric enum has members 0..6
(`POINTS` .. `TRIANGLE_FAN`). -/
def validRenderMode (m : Nat) : Bool := m ≤ 6

/-- One primitive of the `json.meshes.map` pass: default the mode to
`TRIANGLES` (4), `throw new Error` on a mode outside the enum, keep only
attributes whose name resolves in `ShaderLocation` (the rest are
silently dropped), and record the vertex count from the retained
`POSITION` accessor (0 when absent, as `vertexCount` is initialized
to 0 and only assigned for `POSITION`). -/
def parsePrimitive (shaderLoc : String → Option Nat) (accessorCount : Nat → Nat)
    (p : RawPrimitive) : Except String ParsedPrim :=
  let topology := p.mode.getD 4
  if validRenderMode topology then
    let attrs := p.attributes.filterMap fun na =>
      (shaderLoc na.1).map fun loc => ⟨na.1, loc, na.2⟩
    .ok { topology := topology, attrs := attrs,
          vertexCount :=
            ((attrs.find? fun a => a.name == "POSITION").map
              fun a => accessorCount a.accessor).getD 0 }
  else .error ("Unsupported primitive mode " ++ toString topology)

/-- `Array.map` over code that may `throw`: the first exception aborts
the whole map. -/
def mapExcept {A B : Type} (f : A → Except String B) : List A → Except String (List B)
  | [] => .ok []
  | x :: xs =>
    match f x with
    | .error e => .error e
    | .ok y =>
      match mapExcept f xs with
      | .error e => .error e
      | .ok ys => .ok (y :: ys)

/-- The `json.meshes.map(...)` pass of `GLTFLoaderV2.load`. -/
def loadMeshes (shaderLoc : String → Option Nat) (accessorCount : Nat → Nat)
    (ms : List RawMesh) : Except String (List (List ParsedPrim)) :=
  mapExcept (fun m => mapExcept (parsePrimitive shaderLoc accessorCount) m.primitives) ms

/-! ## Concrete demonstration scene (three nodes sharing one primitive) -/

def demoMaterialJson : JVal := .jobj (.cons "name" (.jstr "m") .nil)

def demoPrim : GPrimitive :=
  { json := .jobj (.cons "mode" (.jnum 4) .nil), material := some demoMaterialJson,
    args := .cons "doubleSided" (.jbool false) .nil,
    vertexCtx := .jbool true, fragmentCtx := .jbool false,
    nbuffers := 1, indices := none, vertexCount := 36 }

def demoT : Transform := ⟨fun _ => 1, fun _ => 2⟩

def demoNode : GNode := .mk (some [demoPrim]) demoT .nil

def demoRoots3 : GNodeList := .cons demoNode (.cons demoNode (.cons demoNode .nil))

def demoRoots4 : GNodeList := .cons demoNode demoRoots3

def demoMeshes : List (List GPrimitive) := [[demoPrim]]

/-- The demonstration primitive with no material
(`GLTFPrimitive.build` returns `undefined` for it). -/
def demoPrimNoMat : GPrimitive := { demoPrim with material := none }

def demoNodeNoMat : GNode := .mk (some [demoPrimNoMat]) demoT .nil

/-- A one-primitive, one-node scene state as `build` leaves it, used to
exercise `updateBuffers` directly. -/
def c5State : GLTFSceneState :=
  { renderPipelines := [], nextMatId := 1, matrices := [(primKey demoPrim, [demoT])],
    total := 1, offset := 0, arrayBuffer := fun _ => 0, gpuContents := fun _ => 0,
    bufferBytes := 128 }

def c5Buf : Buf := writeGroup (fun _ => 0) 0 [demoT]

def c5State1 : GLTFSceneState :=
  { c5State with offset := 1, arrayBuffer := c5Buf, gpuContents := c5Buf }

/-- All `{first, count}` ranges stored in a render order, in replay order. -/
def allRanges (l : List PipeEntry) : List (Nat × Nat) :=
  (l.map fun e => (e.mats.map fun m => m.prims.map fun rp => (rp.first, rp.count)).flatten).flatten

def rangesOf (r : Except String (GLTFSceneState × List (Nat × Nat))) : Option (List (Nat × Nat)) :=
  r.toOption.map fun x => allRanges x.1.renderPipelines

def errorOf {A : Type} : Except String A → Option String
  | .error e => some e
  | .ok _ => none

def drawsOf (r : Except String (GLTFSceneState × List (Nat × Nat))) : Option (List Cmd) :=
  r.toOption.map fun x => (render x.1).filter isDrawCmd

/-- The state component of a successful build result (default on error),
used to name concrete built states in closed statements. -/
def okState (r : Except String (GLTFSceneState × List (Nat × Nat)))
    (d : GLTFSceneState) : GLTFSceneState :=
  match r with
  | .ok x => x.1
  | .error _ => d

def okRanges (r : Except String (GLTFSceneState × List (Nat × Nat))) : List (Nat × Nat) :=
  match r with
  | .ok x => x.2
  | .error _ => []

/-- A concrete `ShaderLocation` table: only `POSITION` and `NORMAL`
resolve (collaborator data for the loader examples). -/
def c8ShaderLoc : String → Option Nat :=
  fun n => if n = "POSITION" then some 0 else if n = "NORMAL" then some 1 else none

/-- A concrete accessor-count table for the loader examples. -/
def c8Acc : Nat → Nat := fun _ => 8

/-! ## C2: cache-key canonicalization -/

/-- C2 (counterexample): two descriptor objects that are structurally
equal up to field insertion order — `{a: 0, b: 1}` and `{b: 1, a: 0}` —
receive different cache keys from the `JSON.stringify` canonicalization,
refuting the claim that canonicalization is insertion-order independent. -/
theorem canonicalize_order_dependent :
    structEqUpToOrder
      (.jobj (.cons "a" (.jnum 0) (.cons "b" (.jnum 1) .nil)))
      (.jobj (.cons "b" (.jnum 1) (.cons "a" (.jnum 0) .nil))) ∧
    stringify (.jobj (.cons "a" (.jnum 0) (.cons "b" (.jnum 1) .nil))) ≠
      stringify (.jobj (.cons "b" (.jnum 1) (.cons "a" (.jnum 0) .nil))) := by
  decide

/-- C2 (amended): the `JSON.stringify` canonicalization used for group,
material and pipeline keys yields equal keys for descriptors that are
structurally equal **with the same field insertion order**, treating
fields explicitly set to `undefined` as equal to absent fields
(`dropU` erases exactly such fields); field insertion order itself must
match, as the counterexample shows. -/
theorem canonicalize_undefined_eq_absent :
    ∀ a b : JVal, dropU a = dropU b → stringify a = stringify b := by
  intro a b h
  rw [← stringify_dropU a, ← stringify_dropU b, h]

/-- A pipeline-like descriptor with `multisample` explicitly `undefined`
hashes identically to one lacking the field altogether. -/
theorem canonicalize_undefined_eq_absent_witness :
    dropU (.jobj (.cons "bufferLayout" (.jnum 3)
        (.cons "multisample" .jundef .nil))) =
      dropU (.jobj (.cons "bufferLayout" (.jnum 3) .nil)) ∧
    stringify (.jobj (.cons "bufferLayout" (.jnum 3)
        (.cons "multisample" .jundef .nil))) =
      stringify (.jobj (.cons "bufferLayout" (.jnum 3) .nil)) :=
  ⟨by decide, canonicalize_undefined_eq_absent _ _ (by decide)⟩

/-! ## Association-list and grouping lemmas -/

theorem alookup_append_of_isSome {K V : Type} [DecidableEq K] (k : K)
    (l1 l2 : List (K × V)) (h : (alookup k l1).isSome) :
    alookup k (l1 ++ l2) = alookup k l1 := by
  induction l1 with
  | nil => simp [alookup] at h
  | cons kv t ih =>
    by_cases hk : kv.1 = k
    · simp [alookup, hk]
    · simp only [alookup, if_neg hk, List.cons_append] at h ⊢
      exact ih h

theorem alookup_of_mem_nodup {K V : Type} [DecidableEq K] :
    ∀ (l : List (K × V)) (kv : K × V), (l.map Prod.fst).Nodup → kv ∈ l →
      alookup kv.1 l = some kv.2
  | [], kv, _, hm => by simp at hm
  | hd :: t, kv, hnd, hm => by
    simp only [List.map_cons, List.nodup_cons] at hnd
    rcases List.mem_cons.mp hm with h | h
    · subst h; simp [alookup]
    · have hne : hd.1 ≠ kv.1 := by
        intro he
        exact hnd.1 (he ▸ List.mem_map_of_mem Prod.fst h)
      rw [alookup, if_neg hne]
      exact alookup_of_mem_nodup t kv hnd.2 h

theorem insertPair_keys_of_mem (k : Option String) (t : Transform) :
    ∀ m : List (Option String × List Transform), k ∈ m.map Prod.fst →
      (insertPair k t m).map Prod.fst = m.map Prod.fst
  | [], hm => by simp at hm
  | (k1, ts) :: rest, hm => by
    by_cases hk : k1 = k
    · simp [insertPair, hk]
    · have : k ∈ rest.map Prod.fst := by
        simpa [Ne.symm hk] using hm
      simp [insertPair, hk, insertPair_keys_of_mem k t rest this]

theorem insertPair_keys_of_not_mem (k : Option String) (t : Transform) :
    ∀ m : List (Option String × List Transform), k ∉ m.map Prod.fst →
      (insertPair k t m).map Prod.fst = m.map Prod.fst ++ [k]
  | [], _ => by simp [insertPair]
  | (k1, ts) :: rest, hm => by
    have hk : k1 ≠ k := by
      intro he; exact hm (by simp [he])
    have : k ∉ rest.map Prod.fst := fun h => hm (by simp [h])
    simp [insertPair, hk, insertPair_keys_of_not_mem k t rest this]

theorem insertPair_sizes (k : Option String) (t : Transform) :
    ∀ m : List (Option String × List Transform),
      ((insertPair k t m).map fun g => g.2.length).sum =
        ((m.map fun g => g.2.length).sum) + 1
  | [] => by simp [insertPair]
  | (k1, ts) :: rest => by
    by_cases hk : k1 = k
    · simp [insertPair, hk]; omega
    · simp [insertPair, hk, insertPair_sizes k t rest]; omega

theorem insertPair_key_mem (k k0 : Option String) (t : Transform) :
    ∀ m : List (Option String × List Transform),
      (k0 ∈ (insertPair k t m).map Prod.fst ↔ k0 ∈ m.map Prod.fst ∨ k0 = k)
  | [] => by simp [insertPair, eq_comm]
  | (k1, ts) :: rest => by
    by_cases hk : k1 = k
    · subst hk
      constructor
      · intro h; simp [insertPair] at h
        rcases h with h | h
        · exact Or.inl (by simp [h])
        · exact Or.inl (by simp [h])
      · intro h
        rcases h with h | h
        · simpa [insertPair] using (by simpa using h)
        · simp [insertPair, h]
    · simp only [insertPair, if_neg hk, List.map_cons, List.mem_cons]
      rw [insertPair_key_mem k k0 t rest]
      tauto

theorem buildGroups_aux_keys_nodup :
    ∀ (ps : List (Option String × Transform)) (m : List (Option String × List Transform)),
      (m.map Prod.fst).Nodup →
      ((ps.foldl (fun m kt => insertPair kt.1 kt.2 m) m).map Prod.fst).Nodup
  | [], m, h => h
  | kt :: ps, m, h => by
    simp only [List.foldl_cons]
    apply buildGroups_aux_keys_nodup ps
    by_cases hk : kt.1 ∈ m.map Prod.fst
    · rwa [insertPair_keys_of_mem kt.1 kt.2 m hk]
    · rw [insertPair_keys_of_not_mem kt.1 kt.2 m hk]
      simp [List.nodup_append, h, hk]

theorem buildGroups_keys_nodup (ps : List (Option String × Transform)) :
    ((buildGroups ps).map Prod.fst).Nodup :=
  buildGroups_aux_keys_nodup ps [] (by simp)

theorem buildGroups_aux_sizes :
    ∀ (ps : List (Option String × Transform)) (m : List (Option String × List Transform)),
      ((ps.foldl (fun m kt => insertPair kt.1 kt.2 m) m).map fun g => g.2.length).sum =
        ((m.map fun g => g.2.length).sum) + ps.length
  | [], m => by simp
  | kt :: ps, m => by
    simp only [List.foldl_cons, List.length_cons]
    rw [buildGroups_aux_sizes ps, insertPair_sizes]
    omega

theorem buildGroups_sizes (ps : List (Option String × Transform)) :
    ((buildGroups ps).map fun g => g.2.length).sum = ps.length := by
  have := buildGroups_aux_sizes ps []
  simpa [buildGroups] using this

theorem buildGroups_aux_key_mem :
    ∀ (ps : List (Option String × Transform)) (m : List (Option String × List Transform))
      (k0 : Option String),
      (k0 ∈ ((ps.foldl (fun m kt => insertPair kt.1 kt.2 m) m).map Prod.fst) ↔
        k0 ∈ m.map Prod.fst ∨ k0 ∈ ps.map Prod.fst)
  | [], m, k0 => by simp
  | kt :: ps, m, k0 => by
    simp only [List.foldl_cons, List.map_cons, List.mem_cons]
    rw [buildGroups_aux_key_mem ps, insertPair_key_mem]
    tauto

theorem buildGroups_key_mem (ps : List (Option String × Transform)) (k0 : Option String) :
    k0 ∈ (buildGroups ps).map Prod.fst ↔ k0 ∈ ps.map Prod.fst := by
  have := buildGroups_aux_key_mem ps [] k0
  simpa [buildGroups] using this

/-! ## Range-sequence lemmas -/

theorem rangesFrom_lower (matrices : List (Option String × List Transform)) :
    ∀ (ps : List GPrimitive) (off : Nat) (r : Nat × Nat),
      r ∈ rangesFrom matrices ps off → off ≤ r.1
  | [], _, r, hm => by simp [rangesFrom] at hm
  | p :: ps, off, r, hm => by
    simp only [rangesFrom, List.mem_cons] at hm
    rcases hm with h | h
    · simp [h]
    · have := rangesFrom_lower matrices ps (off + countOf matrices p) r h
      omega

theorem rangesFrom_pairwise (matrices : List (Option String × List Transform)) :
    ∀ (ps : List GPrimitive) (off : Nat),
      (rangesFrom matrices ps off).Pairwise fun a b => a.1 + a.2 ≤ b.1
  | [], _ => by simp [rangesFrom]
  | p :: ps, off => by
    simp only [rangesFrom]
    refine List.Pairwise.cons ?_ (rangesFrom_pairwise matrices ps (off + countOf matrices p))
    intro r hr
    have := rangesFrom_lower matrices ps (off + countOf matrices p) r hr
    simp; omega

theorem rangesFrom_snd (matrices : List (Option String × List Transform)) :
    ∀ (ps : List GPrimitive) (off : Nat),
      (rangesFrom matrices ps off).map Prod.snd = ps.map (countOf matrices)
  | [], _ => by simp [rangesFrom]
  | p :: ps, off => by
    simp [rangesFrom, rangesFrom_snd matrices ps]

theorem rangesFrom_cover (matrices : List (Option String × List Transform)) :
    ∀ (ps : List GPrimitive) (off n : Nat),
      (off ≤ n ∧ n < off + sumCounts matrices ps) ↔
        ∃ r ∈ rangesFrom matrices ps off, r.1 ≤ n ∧ n < r.1 + r.2
  | [], off, n => by simp [rangesFrom, sumCounts]
  | p :: ps, off, n => by
    simp only [rangesFrom, List.mem_cons, sumCounts, List.map_cons, List.sum_cons]
    constructor
    · intro h
      by_cases hn : n < off + countOf matrices p
      · exact ⟨(off, countOf matrices p), Or.inl rfl, by simp; omega⟩
      · have : off + countOf matrices p ≤ n ∧
            n < off + countOf matrices p + sumCounts matrices ps := by
          simp only [sumCounts]; omega
        rcases (rangesFrom_cover matrices ps (off + countOf matrices p) n).mp this
          with ⟨r, hr, hn2⟩
        exact ⟨r, Or.inr hr, hn2⟩
    · rintro ⟨r, hr | hr, hn2⟩
      · subst hr; simp at hn2
        have : sumCounts matrices ps = (ps.map (countOf matrices)).sum := rfl
        omega
      · have h1 := rangesFrom_lower matrices ps (off + countOf matrices p) r hr
        have h2 := (rangesFrom_cover matrices ps (off + countOf matrices p) n).mpr
          ⟨r, hr, hn2⟩
        simp only [sumCounts] at h2
        omega

theorem rangesFrom_length (matrices : List (Option String × List Transform)) :
    ∀ (ps : List GPrimitive) (off : Nat), (rangesFrom matrices ps off).length = ps.length
  | [], _ => rfl
  | p :: ps, off => by simp [rangesFrom, rangesFrom_length matrices ps]

theorem alookup_isSome_iff_mem {K V : Type} [DecidableEq K] (k : K) :
    ∀ l : List (K × V), (alookup k l).isSome ↔ k ∈ l.map Prod.fst
  | [] => by simp [alookup]
  | kv :: t => by
    by_cases hk : kv.1 = k
    · simp [alookup, hk]
    · simp [alookup, hk, alookup_isSome_iff_mem k t, Ne.symm hk]

/-! ## Success and range behaviour of the mesh pass -/

theorem buildStep_ok (total : Nat) (matrices : List (Option String × List Transform))
    (p : GPrimitive) (s : Pass2State) (hm : p.material.isSome)
    (nodes : List Transform) (hk : alookup (primKey p) matrices = some nodes)
    (hb : s.offset + nodes.length ≤ total) :
    buildStep total matrices p s =
      .ok ({ materialCache := (matStepLookup p s).2.1,
             nextMatId := (matStepLookup p s).2.2,
             renderPipelines := pushToPipeline (pipelineKey p) (matStepLookup p s).1
               (mkRenderPrim p (s.offset, nodes.length)) s.renderPipelines,
             offset := s.offset + nodes.length,
             buf := writeGroup s.buf s.offset nodes }, (s.offset, nodes.length)) := by
  simp only [buildStep, hm, if_true, setInstancePosForPrimitiveNodes, hk]
  rw [if_pos (Or.inr hb)]

theorem buildLoop_ok (total : Nat) (matrices : List (Option String × List Transform)) :
    ∀ (ps : List GPrimitive) (s : Pass2State),
      (∀ p ∈ ps, p.material.isSome) →
      (∀ p ∈ ps, (alookup (primKey p) matrices).isSome) →
      s.offset + sumCounts matrices ps ≤ total →
      ∃ s2, buildLoop total matrices ps s = .ok (s2, rangesFrom matrices ps s.offset) ∧
        s2.offset = s.offset + sumCounts matrices ps
  | [], s, _, _, _ => ⟨s, by simp [buildLoop, rangesFrom], by simp [sumCounts]⟩
  | p :: ps, s, hmat, hkey, hbound => by
    obtain ⟨nodes, hk⟩ := Option.isSome_iff_exists.mp (hkey p (by simp))
    have hcount : countOf matrices p = nodes.length := by simp [countOf, hk]
    have hsum : sumCounts matrices (p :: ps) =
        countOf matrices p + sumCounts matrices ps := by simp [sumCounts]
    have hb : s.offset + nodes.length ≤ total := by omega
    have hstep := buildStep_ok total matrices p s (hmat p (by simp)) nodes hk hb
    obtain ⟨s3, hloop, hoff⟩ := buildLoop_ok total matrices ps
      { materialCache := (matStepLookup p s).2.1,
        nextMatId := (matStepLookup p s).2.2,
        renderPipelines := pushToPipeline (pipelineKey p) (matStepLookup p s).1
          (mkRenderPrim p (s.offset, nodes.length)) s.renderPipelines,
        offset := s.offset + nodes.length,
        buf := writeGroup s.buf s.offset nodes }
      (fun q hq => hmat q (by simp [hq]))
      (fun q hq => hkey q (by simp [hq]))
      (by simp only; omega)
    refine ⟨s3, ?_, ?_⟩
    · simp only [buildLoop, hstep, hloop, rangesFrom, hcount]
    · simp only at hoff
      omega

/-! ## C1: the batcher partitions `[0, N)` into per-group ranges -/

/-- C1: for a scene whose `N` node/primitive pairs are grouped by
structural primitive identity (`JSON.stringify` of the primitive), if
the mesh list's primitives have pairwise distinct serialized identities,
every referenced group's identity occurs in the mesh list and vice
versa, and every primitive has a material (so that `build` completes),
then `GLTFScene.build` succeeds and: the assigned `{first, count}`
ranges have `count` equal to the group size looked up for each
primitive; each group receives a range whose `count` is the number of
node references in that group; the ranges are pairwise disjoint (each
ends no later than a later one begins); and their union is exactly
`[0, N)`. -/
theorem build_ranges_partition (meshes : List (List GPrimitive)) (roots : GNodeList)
    (st0 : GLTFSceneState)
    (h1 : ((meshes.flatten).map primKey).Nodup)
    (h2 : ∀ pt ∈ nodeListPairs roots, primKey pt.1 ∈ (meshes.flatten).map primKey)
    (h3 : ∀ p ∈ meshes.flatten, p.material.isSome)
    (h4 : ∀ p ∈ meshes.flatten, (alookup (primKey p) (sceneGroups roots)).isSome) :
    ∃ st1 rs, build meshes roots st0 = .ok (st1, rs) ∧
      rs.map Prod.snd = (meshes.flatten).map (countOf (sceneGroups roots)) ∧
      (∀ g ∈ sceneGroups roots, ∃ j, ∃ hj1 : j < ((meshes.flatten).map primKey).length,
        ∃ hj2 : j < rs.length,
        ((meshes.flatten).map primKey).get ⟨j, hj1⟩ = g.1 ∧
        (rs.get ⟨j, hj2⟩).2 = g.2.length) ∧
      rs.Pairwise (fun a b => a.1 + a.2 ≤ b.1) ∧
      (∀ n, n < (nodeListPairs roots).length ↔ ∃ r ∈ rs, r.1 ≤ n ∧ n < r.1 + r.2) := by
  have hGnodup : ((sceneGroups roots).map Prod.fst).Nodup := buildGroups_keys_nodup _
  have hmemiff : ∀ k, k ∈ (meshes.flatten).map primKey ↔
      k ∈ (sceneGroups roots).map Prod.fst := by
    intro k
    constructor
    · intro hkm
      obtain ⟨p, hp, hpk⟩ := List.mem_map.mp hkm
      have h5 := h4 p hp
      rw [alookup_isSome_iff_mem] at h5
      rwa [hpk] at h5
    · intro hkm
      have h5 : k ∈ ((nodeListPairs roots).map
          fun pt => (primKey pt.1, pt.2)).map Prod.fst :=
        (buildGroups_key_mem _ k).mp hkm
      simp only [List.map_map, Function.comp] at h5
      obtain ⟨pt, hpt, hptk⟩ := List.mem_map.mp h5
      exact hptk ▸ h2 pt hpt
  have hperm : ((meshes.flatten).map primKey).Perm ((sceneGroups roots).map Prod.fst) :=
    (List.perm_ext_iff_of_nodup h1 hGnodup).mpr hmemiff
  have hsum1 : sumCounts (sceneGroups roots) meshes.flatten =
      (((meshes.flatten).map primKey).map
        fun k => ((alookup k (sceneGroups roots)).getD []).length).sum := by
    rw [List.map_map]; rfl
  have hsum2 := (hperm.map fun k => ((alookup k (sceneGroups roots)).getD []).length).sum_eq
  have hsum3 : (((sceneGroups roots).map Prod.fst).map
      fun k => ((alookup k (sceneGroups roots)).getD []).length).sum =
      ((sceneGroups roots).map fun g => g.2.length).sum := by
    rw [List.map_map]
    refine congrArg List.sum (List.map_congr_left ?_)
    intro g hg
    simp [Function.comp, alookup_of_mem_nodup (sceneGroups roots) g hGnodup hg]
  have htotal : sumCounts (sceneGroups roots) meshes.flatten =
      (nodeListPairs roots).length := by
    rw [hsum1, hsum2, hsum3]
    simp [sceneGroups, buildGroups_sizes]
  obtain ⟨s2, hloop, hoff⟩ := buildLoop_ok ((nodeListPairs roots).length)
    (sceneGroups roots) meshes.flatten
    { materialCache := [], nextMatId := st0.nextMatId,
      renderPipelines := st0.renderPipelines, offset := 0, buf := fun _ => 0 }
    h3 h4 (by simp [htotal])
  have hbuild : build meshes roots st0 =
      .ok ({ renderPipelines := s2.renderPipelines, nextMatId := s2.nextMatId,
             matrices := sceneGroups roots, total := (nodeListPairs roots).length,
             offset := 0, arrayBuffer := fun _ => 0, gpuContents := s2.buf,
             bufferBytes := 16 * 2 * 4 * (nodeListPairs roots).length },
            rangesFrom (sceneGroups roots) meshes.flatten 0) := by
    simp only [sceneGroups] at hloop
    simp only [build]
    rw [hloop]
    rfl
  refine ⟨_, _, hbuild, rangesFrom_snd _ _ _, ?_, rangesFrom_pairwise _ _ _, ?_⟩
  · intro g hg
    have hk1 : g.1 ∈ (meshes.flatten).map primKey :=
      (hmemiff g.1).mpr (List.mem_map_of_mem Prod.fst hg)
    obtain ⟨⟨j, hj1⟩, hjk⟩ := List.mem_iff_get.mp hk1
    have hj4 : j < meshes.flatten.length := by
      simpa only [List.length_map] using hj1
    have hj2 : j < (rangesFrom (sceneGroups roots) meshes.flatten 0).length := by
      rw [rangesFrom_length]; exact hj4
    refine ⟨j, hj1, hj2, hjk, ?_⟩
    have h5 : ((rangesFrom (sceneGroups roots) meshes.flatten 0).map Prod.snd)[j]? =
        ((meshes.flatten).map (countOf (sceneGroups roots)))[j]? := by
      rw [rangesFrom_snd]
    rw [List.getElem?_map, List.getElem?_map, List.getElem?_eq_getElem hj2,
      List.getElem?_eq_getElem hj4] at h5
    simp at h5
    rw [List.get_eq_getElem, List.getElem_map] at hjk
    simp only [List.get_eq_getElem]
    rw [h5, countOf, hjk, alookup_of_mem_nodup (sceneGroups roots) g hGnodup hg]
    rfl
  · intro n
    have hcov := rangesFrom_cover (sceneGroups roots) meshes.flatten 0 n
    constructor
    · intro hn
      exact hcov.mp ⟨Nat.zero_le n, by omega⟩
    · intro hn
      have := hcov.mpr hn
      omega

/-- C1 applied to a concrete scene of three nodes sharing one primitive:
the hypotheses hold and `build` assigns one range per group covering
`[0, 3)`. -/
theorem build_ranges_partition_witness :
    (((demoMeshes.flatten).map primKey).Nodup ∧
      (∀ pt ∈ nodeListPairs demoRoots3, primKey pt.1 ∈ (demoMeshes.flatten).map primKey) ∧
      (∀ p ∈ demoMeshes.flatten, p.material.isSome) ∧
      (∀ p ∈ demoMeshes.flatten, (alookup (primKey p) (sceneGroups demoRoots3)).isSome)) ∧
    (∃ st1 rs, build demoMeshes demoRoots3 initialState = .ok (st1, rs) ∧
      rs.map Prod.snd = (demoMeshes.flatten).map (countOf (sceneGroups demoRoots3)) ∧
      (∀ g ∈ sceneGroups demoRoots3, ∃ j,
        ∃ hj1 : j < ((demoMeshes.flatten).map primKey).length,
        ∃ hj2 : j < rs.length,
        ((demoMeshes.flatten).map primKey).get ⟨j, hj1⟩ = g.1 ∧
        (rs.get ⟨j, hj2⟩).2 = g.2.length) ∧
      rs.Pairwise (fun a b => a.1 + a.2 ≤ b.1) ∧
      (∀ n, n < (nodeListPairs demoRoots3).length ↔ ∃ r ∈ rs, r.1 ≤ n ∧ n < r.1 + r.2)) :=
  ⟨⟨by decide, by decide, by decide, by decide⟩,
    build_ranges_partition demoMeshes demoRoots3 initialState
      (by decide) (by decide) (by decide) (by decide)⟩

/-! ## C4: rebuilding after adding a node -/

/-- C4: evaluating `build` at the failing input.  Building a scene of
three nodes sharing one primitive puts the range
`{first := 0, count := 3}` in the render order; adding a fourth node
and calling `build` again leaves that stale `{first := 0, count := 3}`
draw entry in the render order (under the first build's material entry,
because the constructor-created `renderPipelines` map is never cleared
by `build`) alongside the new `{first := 0, count := 4}` — the claim
that only the new range remains is false of the code. -/
theorem rebuild_retains_stale_range :
    rangesOf (build demoMeshes demoRoots3 initialState) = some [(0, 3)] ∧
    rangesOf ((build demoMeshes demoRoots3 initialState).bind
      fun x => build demoMeshes demoRoots4 x.1) = some [(0, 3), (0, 4)] :=
  ⟨by decide, by decide⟩

/-! ## C9: a primitive without a material -/

/-- C9: evaluating `build` at the failing input: a scene whose only
primitive has no material.  `GLTFPrimitive.build` returns `undefined`
(line 896, with a TODO for assigning a default material), and the mesh
pass destructures that result with a non-null assertion (line 543), so
`GLTFScene.build` throws instead of deferring the primitive — the rest
of the scene build does not complete. -/
theorem build_throws_without_material :
    errorOf (build [[demoPrimNoMat]] (.cons demoNodeNoMat .nil) initialState) =
      some "TypeError: cannot destructure build result of undefined" :=
  by decide

/-! ## Buffer-write agreement lemmas -/

theorem writeMat_cases (b1 b2 : Buf) (off : Nat) (m : Fin 16 → Int) (j : Nat) :
    writeMat b1 off m j = writeMat b2 off m j ∨
      (writeMat b1 off m j = b1 j ∧ writeMat b2 off m j = b2 j) := by
  unfold writeMat
  by_cases h : off ≤ j ∧ j < off + 16
  · left; simp [h]
  · right; simp [h]

theorem writeBlock_cases (b1 b2 : Buf) (f : Nat) (t : Transform) (j : Nat) :
    writeBlock b1 f t j = writeBlock b2 f t j ∨
      (writeBlock b1 f t j = b1 j ∧ writeBlock b2 f t j = b2 j) := by
  unfold writeBlock
  rcases writeMat_cases (writeMat b1 (32 * f) t.worldMatrix)
      (writeMat b2 (32 * f) t.worldMatrix) (32 * f + 16) t.worldNormalMatrix j with
    h | ⟨h1, h2⟩
  · exact Or.inl h
  · rw [h1, h2]
    exact writeMat_cases b1 b2 (32 * f) t.worldMatrix j

theorem writeGroup_cases : ∀ (ns : List Transform) (f : Nat) (b1 b2 : Buf) (j : Nat),
    writeGroup b1 f ns j = writeGroup b2 f ns j ∨
      (writeGroup b1 f ns j = b1 j ∧ writeGroup b2 f ns j = b2 j)
  | [], _, _, _, _ => Or.inr ⟨rfl, rfl⟩
  | t :: ts, f, b1, b2, j => by
    simp only [writeGroup]
    rcases writeGroup_cases ts (f + 1) (writeBlock b1 f t) (writeBlock b2 f t) j with
      h | ⟨h1, h2⟩
    · exact Or.inl h
    · rw [h1, h2]
      exact writeBlock_cases b1 b2 f t j

theorem setInstancePos_eq_none (total : Nat)
    (matrices : List (Option String × List Transform)) (p : GPrimitive)
    (off : Nat) (b : Buf) (hk : alookup (primKey p) matrices = none) :
    setInstancePosForPrimitiveNodes total matrices p off b =
      .error "TypeError: nodes is undefined" := by
  unfold setInstancePosForPrimitiveNodes
  rw [hk]

theorem setInstancePos_eq_some (total : Nat)
    (matrices : List (Option String × List Transform)) (p : GPrimitive)
    (off : Nat) (b : Buf) (nodes : List Transform)
    (hk : alookup (primKey p) matrices = some nodes) :
    setInstancePosForPrimitiveNodes total matrices p off b =
      if nodes.length = 0 ∨ off + nodes.length ≤ total then
        .ok ((off, nodes.length), off + nodes.length, writeGroup b off nodes)
      else .error "RangeError: offset is out of bounds" := by
  unfold setInstancePosForPrimitiveNodes
  rw [hk]

theorem setInstancePos_congr (total : Nat)
    (matrices : List (Option String × List Transform)) (p : GPrimitive)
    (off : Nat) (b1 b2 : Buf) (fc : Nat × Nat) (off2 : Nat) (c1 : Buf)
    (h : setInstancePosForPrimitiveNodes total matrices p off b1 = .ok (fc, off2, c1)) :
    ∃ c2, setInstancePosForPrimitiveNodes total matrices p off b2 = .ok (fc, off2, c2) ∧
      ∀ j, c1 j = c2 j ∨ (c1 j = b1 j ∧ c2 j = b2 j) := by
  cases hk : alookup (primKey p) matrices with
  | none =>
    rw [setInstancePos_eq_none total matrices p off b1 hk] at h
    exact absurd h (by simp)
  | some nodes =>
    rw [setInstancePos_eq_some total matrices p off b1 nodes hk] at h
    rw [setInstancePos_eq_some total matrices p off b2 nodes hk]
    by_cases hc : nodes.length = 0 ∨ off + nodes.length ≤ total
    · rw [if_pos hc] at h
      rw [if_pos hc]
      simp only [Except.ok.injEq, Prod.mk.injEq] at h
      obtain ⟨h1, h2, h3⟩ := h
      subst h1 h2
      refine ⟨writeGroup b2 off nodes, rfl, ?_⟩
      intro j
      rw [← h3]
      exact writeGroup_cases nodes off b1 b2 j
    · rw [if_neg hc] at h
      exact absurd h (by simp)

theorem updLoop_congr (total : Nat) (matrices : List (Option String × List Transform)) :
    ∀ (ps : List GPrimitive) (off : Nat) (b1 b2 : Buf) (off1 : Nat) (c1 : Buf)
      (rs : List (Nat × Nat)),
      updLoop total matrices ps off b1 = .ok ((off1, c1), rs) →
      ∃ c2, updLoop total matrices ps off b2 = .ok ((off1, c2), rs) ∧
        ∀ j, c1 j = c2 j ∨ (c1 j = b1 j ∧ c2 j = b2 j)
  | [], off, b1, b2, off1, c1, rs, h => by
    simp only [updLoop, Except.ok.injEq, Prod.mk.injEq] at h
    obtain ⟨⟨h1, h2⟩, h3⟩ := h
    subst h1 h3
    exact ⟨b2, by simp [updLoop], fun j => Or.inr ⟨by rw [h2], rfl⟩⟩
  | p :: ps, off, b1, b2, off1, c1, rs, h => by
    simp only [updLoop] at h
    cases hsp : setInstancePosForPrimitiveNodes total matrices p off b1 with
    | error e => simp only [hsp] at h; exact absurd h (by simp)
    | ok v =>
      obtain ⟨fc0, offA, bA⟩ := v
      simp only [hsp] at h
      cases hrest : updLoop total matrices ps offA bA with
      | error e => simp only [hrest] at h; exact absurd h (by simp)
      | ok w =>
        obtain ⟨⟨offB, cB⟩, rsB⟩ := w
        simp only [hrest] at h
        simp only [Except.ok.injEq, Prod.mk.injEq] at h
        obtain ⟨⟨h1, h2⟩, h3⟩ := h
        subst h1 h3
        obtain ⟨cA, hspc, hP1⟩ :=
          setInstancePos_congr total matrices p off b1 b2 fc0 offA bA hsp
        obtain ⟨c2, hloop2, hP2⟩ :=
          updLoop_congr total matrices ps offA bA cA offB cB rsB hrest
        refine ⟨c2, ?_, ?_⟩
        · simp only [updLoop, hspc, hloop2]
        · intro j
          rw [← h2]
          rcases hP2 j with hx | ⟨hx1, hx2⟩
          · exact Or.inl hx
          · rcases hP1 j with hy | ⟨hy1, hy2⟩
            · exact Or.inl (by rw [hx1, hx2, hy])
            · exact Or.inr ⟨by rw [hx1, hy1], by rw [hx2, hy2]⟩

/-! ## C5: `updateBuffers` is idempotent -/

/-- C5: for every scene state, if `updateBuffers` succeeds, then a
second `updateBuffers` call (no topology change, transforms unchanged)
also succeeds, computes the same ranges, and leaves the instance
staging array byte-for-byte identical to what the first call wrote. -/
theorem updateBuffers_idempotent (meshes : List (List GPrimitive))
    (st st1 : GLTFSceneState) (rs1 : List (Nat × Nat))
    (h : updateBuffers meshes st = .ok (st1, rs1)) :
    ∃ st2 rs2, updateBuffers meshes st1 = .ok (st2, rs2) ∧ rs2 = rs1 ∧
      ∀ j, st2.arrayBuffer j = st1.arrayBuffer j := by
  unfold updateBuffers at h
  cases hu : updLoop st.total st.matrices meshes.flatten 0 st.arrayBuffer with
  | error e => rw [hu] at h; exact absurd h (by simp)
  | ok w =>
    rw [hu] at h
    obtain ⟨⟨off1, c1⟩, rs⟩ := w
    simp only [Except.ok.injEq, Prod.mk.injEq] at h
    obtain ⟨h1, h2⟩ := h
    subst h2
    obtain ⟨c2, hloop2, hP⟩ :=
      updLoop_congr st.total st.matrices meshes.flatten 0 st.arrayBuffer c1 off1 c1 rs hu
    have hc2 : ∀ j, c2 j = c1 j := by
      intro j
      rcases hP j with hx | ⟨hx1, hx2⟩
      · exact hx.symm
      · exact hx2
    refine ⟨{ st1 with offset := off1, arrayBuffer := c2, gpuContents := c2 }, rs, ?_, rfl, ?_⟩
    · unfold updateBuffers
      have ht : st1.total = st.total := by rw [← h1]
      have hm : st1.matrices = st.matrices := by rw [← h1]
      have ha : st1.arrayBuffer = c1 := by rw [← h1]
      rw [ht, hm, ha, hloop2]
    · intro j
      have ha : st1.arrayBuffer = c1 := by rw [← h1]
      simp only [ha]
      exact hc2 j

/-- C5 applied to a concrete one-primitive scene: the second
`updateBuffers` writes exactly the bytes the first wrote. -/
theorem updateBuffers_idempotent_witness :
    updateBuffers [[demoPrim]] c5State = .ok (c5State1, [(0, 1)]) ∧
    ∃ st2 rs2, updateBuffers [[demoPrim]] c5State1 = .ok (st2, rs2) ∧ rs2 = [(0, 1)] ∧
      ∀ j, st2.arrayBuffer j = c5State1.arrayBuffer j :=
  ⟨rfl, updateBuffers_idempotent [[demoPrim]] c5State c5State1 [(0, 1)] rfl⟩

/-! ## C6: `updateBuffers` refreshes contents without moving ranges -/

theorem buildLoop_to_updLoop (total : Nat)
    (matrices : List (Option String × List Transform)) :
    ∀ (ps : List GPrimitive) (s s2 : Pass2State) (rs : List (Nat × Nat)),
      buildLoop total matrices ps s = .ok (s2, rs) →
      ∀ b, ∃ b2, updLoop total matrices ps s.offset b = .ok ((s2.offset, b2), rs)
  | [], s, s2, rs, h, b => by
    simp only [buildLoop, Except.ok.injEq, Prod.mk.injEq] at h
    obtain ⟨h1, h2⟩ := h
    subst h1 h2
    exact ⟨b, by simp [updLoop]⟩
  | p :: ps, s, s2, rs, h, b => by
    simp only [buildLoop] at h
    cases hbs : buildStep total matrices p s with
    | error e => simp only [hbs] at h; exact absurd h (by simp)
    | ok v =>
      obtain ⟨sA, fc⟩ := v
      simp only [hbs] at h
      cases hbl : buildLoop total matrices ps sA with
      | error e => simp only [hbl] at h; exact absurd h (by simp)
      | ok w =>
        obtain ⟨s3, rs2⟩ := w
        simp only [hbl, Except.ok.injEq, Prod.mk.injEq] at h
        obtain ⟨h1, h2⟩ := h
        subst h1 h2
        cases hm : p.material.isSome with
        | false =>
          simp only [buildStep, hm, Bool.false_eq_true, if_false] at hbs
          exact absurd hbs (by simp)
        | true =>
          simp only [buildStep, hm, if_true] at hbs
          cases hsp : setInstancePosForPrimitiveNodes total matrices p s.offset s.buf with
          | error e => simp only [hsp] at hbs; exact absurd hbs (by simp)
          | ok v2 =>
            obtain ⟨fc0, offA, bA⟩ := v2
            simp only [hsp, Except.ok.injEq, Prod.mk.injEq] at hbs
            obtain ⟨hbs1, hbs2⟩ := hbs
            obtain ⟨cA, hspc, _⟩ :=
              setInstancePos_congr total matrices p s.offset s.buf b fc0 offA bA hsp
            obtain ⟨b2, hupd⟩ := buildLoop_to_updLoop total matrices ps sA s3 rs2 hbl cA
            have hoffA : sA.offset = offA := by rw [← hbs1]
            rw [hoffA] at hupd
            refine ⟨b2, ?_⟩
            simp only [updLoop, hspc, hupd, hbs2]

/-- C6: after a successful `build`, `updateBuffers` re-walks the mesh
primitives in the same fixed order, assigns exactly the ranges `build`
assigned (ranges never move), succeeds, leaves the group map, render
order, instance count and instance-buffer byte size unchanged (the
buffer is never resized), and uploads the full staging array (the GPU
contents equal the staging contents afterwards) — only buffer contents
change. -/
theorem updateBuffers_fixed_layout (meshes : List (List GPrimitive)) (roots : GNodeList)
    (st0 st1 : GLTFSceneState) (rs : List (Nat × Nat))
    (h : build meshes roots st0 = .ok (st1, rs)) :
    ∃ st2 rs2, updateBuffers meshes st1 = .ok (st2, rs2) ∧ rs2 = rs ∧
      st2.total = st1.total ∧ st2.bufferBytes = st1.bufferBytes ∧
      st2.renderPipelines = st1.renderPipelines ∧ st2.matrices = st1.matrices ∧
      ∀ j, st2.gpuContents j = st2.arrayBuffer j := by
  simp only [build] at h
  cases hbl : buildLoop (nodeListPairs roots).length
      (buildGroups ((nodeListPairs roots).map fun pt => (primKey pt.1, pt.2)))
      meshes.flatten
      { materialCache := [], nextMatId := st0.nextMatId,
        renderPipelines := st0.renderPipelines, offset := 0, buf := fun _ => 0 } with
  | error e => simp only [hbl] at h; exact absurd h (by simp)
  | ok w =>
    obtain ⟨s2, rs0⟩ := w
    simp only [hbl, Except.ok.injEq, Prod.mk.injEq] at h
    obtain ⟨h1, h2⟩ := h
    subst h2
    obtain ⟨b2, hupd⟩ := buildLoop_to_updLoop _ _ meshes.flatten _ s2 rs0 hbl st1.arrayBuffer
    have hupd2 : updLoop st1.total st1.matrices meshes.flatten 0 st1.arrayBuffer =
        .ok ((s2.offset, b2), rs0) := by
      have ht : st1.total = (nodeListPairs roots).length := by rw [← h1]
      have hm2 : st1.matrices =
          buildGroups ((nodeListPairs roots).map fun pt => (primKey pt.1, pt.2)) := by
        rw [← h1]
      rw [ht, hm2]
      exact hupd
    refine ⟨{ st1 with offset := s2.offset, arrayBuffer := b2, gpuContents := b2 }, rs0,
      ?_, rfl, rfl, rfl, rfl, rfl, fun j => rfl⟩
    unfold updateBuffers
    rw [hupd2]

/-- C6 applied to the concrete three-node scene. -/
theorem updateBuffers_fixed_layout_witness :
    build demoMeshes demoRoots3 initialState =
      .ok (okState (build demoMeshes demoRoots3 initialState) initialState,
        okRanges (build demoMeshes demoRoots3 initialState)) ∧
    ∃ st2 rs2, updateBuffers demoMeshes
        (okState (build demoMeshes demoRoots3 initialState) initialState) =
        .ok (st2, rs2) ∧
      rs2 = okRanges (build demoMeshes demoRoots3 initialState) ∧
      st2.total = (okState (build demoMeshes demoRoots3 initialState) initialState).total ∧
      st2.bufferBytes =
        (okState (build demoMeshes demoRoots3 initialState) initialState).bufferBytes ∧
      st2.renderPipelines =
        (okState (build demoMeshes demoRoots3 initialState) initialState).renderPipelines ∧
      st2.matrices =
        (okState (build demoMeshes demoRoots3 initialState) initialState).matrices ∧
      ∀ j, st2.gpuContents j = st2.arrayBuffer j :=
  ⟨rfl, updateBuffers_fixed_layout demoMeshes demoRoots3 initialState _ _ rfl⟩

/-! ## C10: instance-block layout of the instance buffer -/

theorem writeMat_outside (b : Buf) (off : Nat) (m : Fin 16 → Int) (j : Nat)
    (h : j < off ∨ off + 16 ≤ j) : writeMat b off m j = b j := by
  unfold writeMat
  rw [dif_neg]
  omega

theorem writeMat_inside (b : Buf) (off : Nat) (m : Fin 16 → Int) (k : Nat) (hk : k < 16) :
    writeMat b off m (off + k) = m ⟨k, hk⟩ := by
  unfold writeMat
  rw [dif_pos (by omega)]
  simp only [Nat.add_sub_cancel_left]

theorem writeBlock_outside (b : Buf) (f : Nat) (t : Transform) (j : Nat)
    (h : j < 32 * f ∨ 32 * f + 32 ≤ j) : writeBlock b f t j = b j := by
  unfold writeBlock
  rw [writeMat_outside _ _ _ _ (by omega), writeMat_outside _ _ _ _ (by omega)]

theorem writeBlock_read_wm (b : Buf) (f : Nat) (t : Transform) (k : Nat) (hk : k < 16) :
    writeBlock b f t (32 * f + k) = t.worldMatrix ⟨k, hk⟩ := by
  unfold writeBlock
  rw [writeMat_outside _ _ _ _ (by omega)]
  exact writeMat_inside b (32 * f) t.worldMatrix k hk

theorem writeBlock_read_wnm (b : Buf) (f : Nat) (t : Transform) (k : Nat) (hk : k < 16) :
    writeBlock b f t (32 * f + 16 + k) = t.worldNormalMatrix ⟨k, hk⟩ := by
  unfold writeBlock
  have h1 : 32 * f + 16 + k = (32 * f + 16) + k := by omega
  rw [h1]
  exact writeMat_inside _ (32 * f + 16) t.worldNormalMatrix k hk

theorem writeGroup_outside : ∀ (ns : List Transform) (f : Nat) (b : Buf) (j : Nat),
    (j < 32 * f ∨ 32 * (f + ns.length) ≤ j) → writeGroup b f ns j = b j
  | [], _, _, _, _ => rfl
  | t :: ts, f, b, j, h => by
    simp only [writeGroup]
    rw [writeGroup_outside ts (f + 1) (writeBlock b f t) j
      (by simp only [List.length_cons] at h; omega)]
    exact writeBlock_outside b f t j (by simp only [List.length_cons] at h; omega)

theorem writeGroup_read : ∀ (ns : List Transform) (f : Nat) (b : Buf) (i : Nat)
    (hi : i < ns.length) (k : Nat) (hk : k < 16),
    writeGroup b f ns (32 * (f + i) + k) = (ns.get ⟨i, hi⟩).worldMatrix ⟨k, hk⟩ ∧
    writeGroup b f ns (32 * (f + i) + 16 + k) = (ns.get ⟨i, hi⟩).worldNormalMatrix ⟨k, hk⟩
  | [], _, _, i, hi, _, _ => by simp at hi
  | t :: ts, f, b, 0, hi, k, hk => by
    simp only [writeGroup, List.get]
    constructor
    · rw [writeGroup_outside ts (f + 1) _ _ (by left; omega)]
      have h1 : 32 * (f + 0) + k = 32 * f + k := by omega
      rw [h1]
      exact writeBlock_read_wm b f t k hk
    · rw [writeGroup_outside ts (f + 1) _ _ (by left; omega)]
      have h1 : 32 * (f + 0) + 16 + k = 32 * f + 16 + k := by omega
      rw [h1]
      exact writeBlock_read_wnm b f t k hk
  | t :: ts, f, b, i + 1, hi, k, hk => by
    simp only [writeGroup, List.get]
    have h1 : 32 * (f + (i + 1)) + k = 32 * ((f + 1) + i) + k := by omega
    have h2 : 32 * (f + (i + 1)) + 16 + k = 32 * ((f + 1) + i) + 16 + k := by omega
    rw [h1, h2]
    exact writeGroup_read ts (f + 1) (writeBlock b f t) i
      (by simp only [List.length_cons] at hi; omega) k hk

theorem buildStep_inv (total : Nat) (matrices : List (Option String × List Transform))
    (p : GPrimitive) (s sA : Pass2State) (fc : Nat × Nat)
    (h : buildStep total matrices p s = .ok (sA, fc)) :
    ∃ nodes, alookup (primKey p) matrices = some nodes ∧
      fc = (s.offset, nodes.length) ∧ sA.offset = s.offset + nodes.length ∧
      sA.buf = writeGroup s.buf s.offset nodes := by
  cases hm : p.material.isSome with
  | false =>
    simp only [buildStep, hm, Bool.false_eq_true, if_false] at h
    exact absurd h (by simp)
  | true =>
    simp only [buildStep, hm, if_true] at h
    cases hk : alookup (primKey p) matrices with
    | none =>
      rw [setInstancePos_eq_none total matrices p s.offset s.buf hk] at h
      exact absurd h (by simp)
    | some nodes =>
      rw [setInstancePos_eq_some total matrices p s.offset s.buf nodes hk] at h
      by_cases hc : nodes.length = 0 ∨ s.offset + nodes.length ≤ total
      · rw [if_pos hc] at h
        simp only [Except.ok.injEq, Prod.mk.injEq] at h
        obtain ⟨h1, h2⟩ := h
        refine ⟨nodes, rfl, h2.symm, ?_, ?_⟩
        · rw [← h1]
        · rw [← h1]
      · rw [if_neg hc] at h
        exact absurd h (by simp)

theorem buildLoop_preserves_low (total : Nat)
    (matrices : List (Option String × List Transform)) :
    ∀ (ps : List GPrimitive) (s s2 : Pass2State) (rs : List (Nat × Nat)),
      buildLoop total matrices ps s = .ok (s2, rs) →
      ∀ j, j < 32 * s.offset → s2.buf j = s.buf j
  | [], s, s2, rs, h, j, hj => by
    simp only [buildLoop, Except.ok.injEq, Prod.mk.injEq] at h
    rw [← h.1]
  | p :: ps, s, s2, rs, h, j, hj => by
    simp only [buildLoop] at h
    cases hbs : buildStep total matrices p s with
    | error e => simp only [hbs] at h; exact absurd h (by simp)
    | ok v =>
      obtain ⟨sA, fc⟩ := v
      simp only [hbs] at h
      cases hbl : buildLoop total matrices ps sA with
      | error e => simp only [hbl] at h; exact absurd h (by simp)
      | ok w =>
        obtain ⟨s3, rs2⟩ := w
        simp only [hbl, Except.ok.injEq, Prod.mk.injEq] at h
        obtain ⟨nodes, hk, hfc, hoff, hbuf⟩ := buildStep_inv total matrices p s sA fc hbs
        have hstep : sA.buf j = s.buf j := by
          rw [hbuf]
          exact writeGroup_outside nodes s.offset s.buf j (Or.inl (by omega))
        have htail : s3.buf j = sA.buf j :=
          buildLoop_preserves_low total matrices ps sA s3 rs2 hbl j (by omega)
        rw [← h.1, htail, hstep]

theorem buildLoop_contents (total : Nat)
    (matrices : List (Option String × List Transform)) :
    ∀ (ps : List GPrimitive) (s s2 : Pass2State) (rs : List (Nat × Nat)),
      buildLoop total matrices ps s = .ok (s2, rs) →
      ∀ (jdx : Nat) (hj : jdx < ps.length) (f c : Nat) (nodes : List Transform),
        rs[jdx]? = some (f, c) →
        alookup (primKey (ps.get ⟨jdx, hj⟩)) matrices = some nodes →
        c = nodes.length ∧
        ∀ (i : Nat) (hi : i < nodes.length) (k : Nat) (hk : k < 16),
          s2.buf (32 * (f + i) + k) = (nodes.get ⟨i, hi⟩).worldMatrix ⟨k, hk⟩ ∧
          s2.buf (32 * (f + i) + 16 + k) =
            (nodes.get ⟨i, hi⟩).worldNormalMatrix ⟨k, hk⟩
  | [], s, s2, rs, h, jdx, hj, _, _, _, _, _ => by simp at hj
  | p :: ps, s, s2, rs, h, jdx, hj, f, c, nodes, hr, hk2 => by
    simp only [buildLoop] at h
    cases hbs : buildStep total matrices p s with
    | error e => simp only [hbs] at h; exact absurd h (by simp)
    | ok v =>
      obtain ⟨sA, fc⟩ := v
      simp only [hbs] at h
      cases hbl : buildLoop total matrices ps sA with
      | error e => simp only [hbl] at h; exact absurd h (by simp)
      | ok w =>
        obtain ⟨s3, rs2⟩ := w
        simp only [hbl, Except.ok.injEq, Prod.mk.injEq] at h
        obtain ⟨h1, h2⟩ := h
        subst h1
        obtain ⟨nodes0, hk0, hfc, hoff, hbuf⟩ := buildStep_inv total matrices p s sA fc hbs
        cases jdx with
        | zero =>
          simp only [List.get] at hk2
          rw [hk0] at hk2
          injection hk2 with hk3
          subst hk3
          rw [← h2] at hr
          simp only [List.getElem?_cons_zero, Option.some.injEq] at hr
          rw [hfc] at hr
          cases hr
          refine ⟨rfl, ?_⟩
          intro i hi k hk
          have hlow1 : 32 * (s.offset + i) + k < 32 * sA.offset := by omega
          have hlow2 : 32 * (s.offset + i) + 16 + k < 32 * sA.offset := by omega
          have hp1 := buildLoop_preserves_low total matrices ps sA s3 rs2 hbl _ hlow1
          have hp2 := buildLoop_preserves_low total matrices ps sA s3 rs2 hbl _ hlow2
          rw [hp1, hp2, hbuf]
          exact writeGroup_read nodes0 s.offset s.buf i hi k hk
        | succ n =>
          have hj2 : n < ps.length := by
            simp only [List.length_cons] at hj; omega
          have hr2 : rs2[n]? = some (f, c) := by
            rw [← h2] at hr
            simpa using hr
          have hget : (p :: ps).get ⟨n + 1, hj⟩ = ps.get ⟨n, hj2⟩ := rfl
          rw [hget] at hk2
          exact buildLoop_contents total matrices ps sA s3 rs2 hbl n hj2 f c nodes hr2 hk2

/-- C10: for every successfully built scene, the GPU instance buffer is
created with exactly `16 * 2 * 4 = 128` bytes per instance (times the
total instance count), and each instance `first + i` of a group
occupies the 32-float block at float offset `32 * (first + i)`: the
node's world matrix occupies floats `[32*(first+i), 32*(first+i)+16)`
and its world normal matrix floats `[32*(first+i)+16, 32*(first+i)+32)`
of the mapped buffer contents. -/
theorem build_instance_blocks (meshes : List (List GPrimitive)) (roots : GNodeList)
    (st0 st1 : GLTFSceneState) (rs : List (Nat × Nat))
    (h : build meshes roots st0 = .ok (st1, rs)) :
    st1.bufferBytes = 128 * st1.total ∧
    ∀ (jdx : Nat) (hj : jdx < meshes.flatten.length) (f c : Nat)
      (nodes : List Transform),
      rs[jdx]? = some (f, c) →
      alookup (primKey (meshes.flatten.get ⟨jdx, hj⟩)) st1.matrices = some nodes →
      c = nodes.length ∧
      ∀ (i : Nat) (hi : i < nodes.length) (k : Nat) (hk : k < 16),
        st1.gpuContents (32 * (f + i) + k) = (nodes.get ⟨i, hi⟩).worldMatrix ⟨k, hk⟩ ∧
        st1.gpuContents (32 * (f + i) + 16 + k) =
          (nodes.get ⟨i, hi⟩).worldNormalMatrix ⟨k, hk⟩ := by
  simp only [build] at h
  cases hbl : buildLoop (nodeListPairs roots).length
      (buildGroups ((nodeListPairs roots).map fun pt => (primKey pt.1, pt.2)))
      meshes.flatten
      { materialCache := [], nextMatId := st0.nextMatId,
        renderPipelines := st0.renderPipelines, offset := 0, buf := fun _ => 0 } with
  | error e => simp only [hbl] at h; exact absurd h (by simp)
  | ok w =>
    obtain ⟨s2, rs0⟩ := w
    simp only [hbl, Except.ok.injEq, Prod.mk.injEq] at h
    obtain ⟨h1, h2⟩ := h
    subst h2
    constructor
    · rw [← h1]
    · intro jdx hj f c nodes hr hk2
      have hm : st1.matrices =
          buildGroups ((nodeListPairs roots).map fun pt => (primKey pt.1, pt.2)) := by
        rw [← h1]
      rw [hm] at hk2
      have hg : st1.gpuContents = s2.buf := by rw [← h1]
      rw [hg]
      exact buildLoop_contents _ _ meshes.flatten _ s2 rs0 hbl jdx hj f c nodes hr hk2

/-- C10 applied to the concrete three-node scene: buffer size
`384 = 128 * 3` bytes and the block layout facts. -/
theorem build_instance_blocks_witness :
    build demoMeshes demoRoots3 initialState =
      .ok (okState (build demoMeshes demoRoots3 initialState) initialState,
        okRanges (build demoMeshes demoRoots3 initialState)) ∧
    ((okState (build demoMeshes demoRoots3 initialState) initialState).bufferBytes =
      128 * (okState (build demoMeshes demoRoots3 initialState) initialState).total ∧
    ∀ (jdx : Nat) (hj : jdx < demoMeshes.flatten.length) (f c : Nat)
      (nodes : List Transform),
      (okRanges (build demoMeshes demoRoots3 initialState))[jdx]? = some (f, c) →
      alookup (primKey (demoMeshes.flatten.get ⟨jdx, hj⟩))
        (okState (build demoMeshes demoRoots3 initialState) initialState).matrices =
        some nodes →
      c = nodes.length ∧
      ∀ (i : Nat) (hi : i < nodes.length) (k : Nat) (hk : k < 16),
        (okState (build demoMeshes demoRoots3 initialState) initialState).gpuContents
          (32 * (f + i) + k) = (nodes.get ⟨i, hi⟩).worldMatrix ⟨k, hk⟩ ∧
        (okState (build demoMeshes demoRoots3 initialState) initialState).gpuContents
          (32 * (f + i) + 16 + k) = (nodes.get ⟨i, hi⟩).worldNormalMatrix ⟨k, hk⟩) :=
  ⟨rfl, build_instance_blocks demoMeshes demoRoots3 initialState _ _ rfl⟩

/-! ## C3: pipeline and material deduplication in the render order -/

theorem alookup_append_of_none {K V : Type} [DecidableEq K] (k : K) :
    ∀ (l1 l2 : List (K × V)), alookup k l1 = none →
      alookup k (l1 ++ l2) = alookup k l2
  | [], _, _ => rfl
  | kv :: t, l2, h => by
    by_cases hk : kv.1 = k
    · simp [alookup, hk] at h
    · simp only [alookup, if_neg hk, List.cons_append] at h ⊢
      exact alookup_append_of_none k t l2 h

theorem pushPrim_new (mid : Nat) (rp : RenderPrim) :
    ∀ l : List MatEntry, ∃ m ∈ pushPrim mid rp l, m.matId = mid ∧ rp ∈ m.prims
  | [] => ⟨⟨mid, [rp]⟩, by simp [pushPrim], rfl, by simp⟩
  | e :: rest => by
    by_cases he : e.matId = mid
    · exact ⟨⟨e.matId, e.prims ++ [rp]⟩, by simp [pushPrim, he], he, by simp⟩
    · obtain ⟨m, hm, h1, h2⟩ := pushPrim_new mid rp rest
      exact ⟨m, by simp [pushPrim, he, hm], h1, h2⟩

theorem pushPrim_old (mid : Nat) (rp : RenderPrim) :
    ∀ (l : List MatEntry) (m : MatEntry), m ∈ l →
      ∃ m2 ∈ pushPrim mid rp l, m2.matId = m.matId ∧ ∀ x ∈ m.prims, x ∈ m2.prims
  | [], m, hm => by simp at hm
  | e :: rest, m, hm => by
    by_cases he : e.matId = mid
    · rcases List.mem_cons.mp hm with h1 | h1
      · subst h1
        exact ⟨⟨m.matId, m.prims ++ [rp]⟩, by simp [pushPrim, he], rfl,
          fun x hx => by simp [hx]⟩
      · exact ⟨m, by simp [pushPrim, he, h1], rfl, fun x hx => hx⟩
    · rcases List.mem_cons.mp hm with h1 | h1
      · subst h1
        exact ⟨m, by simp [pushPrim, he], rfl, fun x hx => hx⟩
      · obtain ⟨m2, hm2, h1b, h2b⟩ := pushPrim_old mid rp rest m h1
        exact ⟨m2, by simp [pushPrim, he, hm2], h1b, h2b⟩

theorem pushPrim_ids_of_mem (mid : Nat) (rp : RenderPrim) :
    ∀ l : List MatEntry, mid ∈ l.map MatEntry.matId →
      (pushPrim mid rp l).map MatEntry.matId = l.map MatEntry.matId
  | [], hm => by simp at hm
  | e :: rest, hm => by
    by_cases he : e.matId = mid
    · simp [pushPrim, he]
    · have h1 : mid ∈ rest.map MatEntry.matId := by
        simpa [Ne.symm he] using hm
      simp [pushPrim, he, pushPrim_ids_of_mem mid rp rest h1]

theorem pushPrim_ids_of_not_mem (mid : Nat) (rp : RenderPrim) :
    ∀ l : List MatEntry, mid ∉ l.map MatEntry.matId →
      (pushPrim mid rp l).map MatEntry.matId = l.map MatEntry.matId ++ [mid]
  | [], _ => by simp [pushPrim]
  | e :: rest, hm => by
    have he : e.matId ≠ mid := by
      intro h; exact hm (by simp [h])
    have h1 : mid ∉ rest.map MatEntry.matId := fun h => hm (by simp [h])
    simp [pushPrim, he, pushPrim_ids_of_not_mem mid rp rest h1]

theorem pushPrim_ids_nodup (mid : Nat) (rp : RenderPrim) (l : List MatEntry)
    (h : (l.map MatEntry.matId).Nodup) :
    ((pushPrim mid rp l).map MatEntry.matId).Nodup := by
  by_cases hm : mid ∈ l.map MatEntry.matId
  · rwa [pushPrim_ids_of_mem mid rp l hm]
  · rw [pushPrim_ids_of_not_mem mid rp l hm]
    simp [List.nodup_append, h, hm]

theorem pushToPipeline_keys_of_mem (k : Option String) (mid : Nat) (rp : RenderPrim) :
    ∀ l : List PipeEntry, k ∈ l.map PipeEntry.key →
      (pushToPipeline k mid rp l).map PipeEntry.key = l.map PipeEntry.key
  | [], hm => by simp at hm
  | e :: rest, hm => by
    by_cases he : e.key = k
    · simp [pushToPipeline, he]
    · have h1 : k ∈ rest.map PipeEntry.key := by
        simpa [Ne.symm he] using hm
      simp [pushToPipeline, he, pushToPipeline_keys_of_mem k mid rp rest h1]

theorem pushToPipeline_keys_of_not_mem (k : Option String) (mid : Nat) (rp : RenderPrim) :
    ∀ l : List PipeEntry, k ∉ l.map PipeEntry.key →
      (pushToPipeline k mid rp l).map PipeEntry.key = l.map PipeEntry.key ++ [k]
  | [], _ => by simp [pushToPipeline]
  | e :: rest, hm => by
    have he : e.key ≠ k := by
      intro h; exact hm (by simp [h])
    have h1 : k ∉ rest.map PipeEntry.key := fun h => hm (by simp [h])
    simp [pushToPipeline, he, pushToPipeline_keys_of_not_mem k mid rp rest h1]

theorem pushToPipeline_mats_nodup (k : Option String) (mid : Nat) (rp : RenderPrim) :
    ∀ l : List PipeEntry, (∀ e ∈ l, (e.mats.map MatEntry.matId).Nodup) →
      ∀ e2 ∈ pushToPipeline k mid rp l, (e2.mats.map MatEntry.matId).Nodup
  | [], _, e2, he2 => by
    simp only [pushToPipeline, List.mem_singleton] at he2
    subst he2
    simpa using pushPrim_ids_nodup mid rp [] (by simp)
  | e :: rest, h, e2, he2 => by
    by_cases he : e.key = k
    · simp only [pushToPipeline, if_pos he, List.mem_cons] at he2
      rcases he2 with h1 | h1
      · subst h1
        exact pushPrim_ids_nodup mid rp e.mats (h e (by simp))
      · exact h e2 (by simp [h1])
    · simp only [pushToPipeline, if_neg he, List.mem_cons] at he2
      rcases he2 with h1 | h1
      · subst h1
        exact h e2 (by simp)
      · exact pushToPipeline_mats_nodup k mid rp rest
          (fun e3 he3 => h e3 (by simp [he3])) e2 h1

theorem RPInv_push (k : Option String) (mid : Nat) (rp : RenderPrim)
    (l : List PipeEntry) (h : RPInv l) : RPInv (pushToPipeline k mid rp l) := by
  refine ⟨?_, pushToPipeline_mats_nodup k mid rp l h.2⟩
  by_cases hm : k ∈ l.map PipeEntry.key
  · rw [pushToPipeline_keys_of_mem k mid rp l hm]
    exact h.1
  · rw [pushToPipeline_keys_of_not_mem k mid rp l hm]
    simp [List.nodup_append, h.1, hm]

theorem pushToPipeline_placed_new (k : Option String) (mid : Nat) (rp : RenderPrim) :
    ∀ l : List PipeEntry, placedIn (pushToPipeline k mid rp l) k mid rp
  | [] => by
    obtain ⟨m, hm, h1, h2⟩ := pushPrim_new mid rp []
    exact ⟨⟨k, pushPrim mid rp []⟩, by simp [pushToPipeline], rfl, m, hm, h1, h2⟩
  | e :: rest => by
    by_cases he : e.key = k
    · obtain ⟨m, hm, h1, h2⟩ := pushPrim_new mid rp e.mats
      exact ⟨⟨e.key, pushPrim mid rp e.mats⟩, by simp [pushToPipeline, he], he, m, hm, h1, h2⟩
    · obtain ⟨e2, he2, hkey, m, hm, h1, h2⟩ := pushToPipeline_placed_new k mid rp rest
      exact ⟨e2, by simp [pushToPipeline, he, he2], hkey, m, hm, h1, h2⟩

theorem pushToPipeline_placed_old (k : Option String) (mid : Nat) (rp : RenderPrim) :
    ∀ (l : List PipeEntry) (ks : Option String) (mid0 : Nat) (rp0 : RenderPrim),
      placedIn l ks mid0 rp0 → placedIn (pushToPipeline k mid rp l) ks mid0 rp0
  | [], ks, mid0, rp0, h => by
    obtain ⟨e, he, _⟩ := h
    simp at he
  | e :: rest, ks, mid0, rp0, h => by
    obtain ⟨e1, he1, hkey, m, hm, hmid, hx⟩ := h
    by_cases hek : e.key = k
    · rcases List.mem_cons.mp he1 with h1 | h1
      · subst h1
        obtain ⟨m2, hm2, hmid2, hsub⟩ := pushPrim_old mid rp e1.mats m hm
        exact ⟨⟨e1.key, pushPrim mid rp e1.mats⟩, by simp [pushToPipeline, hek],
          hkey, m2, hm2, by rw [hmid2, hmid], hsub _ hx⟩
      · exact ⟨e1, by simp [pushToPipeline, hek, h1], hkey, m, hm, hmid, hx⟩
    · rcases List.mem_cons.mp he1 with h1 | h1
      · subst h1
        exact ⟨e1, by simp [pushToPipeline, hek], hkey, m, hm, hmid, hx⟩
      · obtain ⟨e2, he2, hkey2, m2, hm2, hmid2, hx2⟩ :=
          pushToPipeline_placed_old k mid rp rest ks mid0 rp0
            ⟨e1, h1, hkey, m, hm, hmid, hx⟩
        exact ⟨e2, by simp [pushToPipeline, hek, he2], hkey2, m2, hm2, hmid2, hx2⟩

theorem matStepLookup_self (p : GPrimitive) (s : Pass2State) :
    alookup (materialKey p) (matStepLookup p s).2.1 = some (matStepLookup p s).1 := by
  unfold matStepLookup
  cases hk : alookup (materialKey p) s.materialCache with
  | some mid => simp [hk]
  | none =>
    simp only
    rw [alookup_append_of_none _ _ _ hk]
    simp [alookup]

theorem matStepLookup_stable (p : GPrimitive) (s : Pass2State) (mkey : Option String)
    (mid : Nat) (h : alookup mkey s.materialCache = some mid) :
    alookup mkey (matStepLookup p s).2.1 = some mid := by
  unfold matStepLookup
  cases hk : alookup (materialKey p) s.materialCache with
  | some m2 => simpa using h
  | none =>
    simp only
    rw [alookup_append_of_isSome _ _ _ (by simp [h])]
    exact h

theorem buildStep_inv_full (total : Nat)
    (matrices : List (Option String × List Transform)) (p : GPrimitive)
    (s sA : Pass2State) (fc : Nat × Nat)
    (h : buildStep total matrices p s = .ok (sA, fc)) :
    ∃ nodes, alookup (primKey p) matrices = some nodes ∧
      fc = (s.offset, nodes.length) ∧
      sA = { materialCache := (matStepLookup p s).2.1,
             nextMatId := (matStepLookup p s).2.2,
             renderPipelines := pushToPipeline (pipelineKey p) (matStepLookup p s).1
               (mkRenderPrim p fc) s.renderPipelines,
             offset := s.offset + nodes.length,
             buf := writeGroup s.buf s.offset nodes } := by
  cases hm : p.material.isSome with
  | false =>
    simp only [buildStep, hm, Bool.false_eq_true, if_false] at h
    exact absurd h (by simp)
  | true =>
    simp only [buildStep, hm, if_true] at h
    cases hk : alookup (primKey p) matrices with
    | none =>
      rw [setInstancePos_eq_none total matrices p s.offset s.buf hk] at h
      exact absurd h (by simp)
    | some nodes =>
      rw [setInstancePos_eq_some total matrices p s.offset s.buf nodes hk] at h
      by_cases hc : nodes.length = 0 ∨ s.offset + nodes.length ≤ total
      · rw [if_pos hc] at h
        simp only [Except.ok.injEq, Prod.mk.injEq] at h
        obtain ⟨h1, h2⟩ := h
        refine ⟨nodes, rfl, h2.symm, ?_⟩
        rw [← h1, ← h2]
      · rw [if_neg hc] at h
        exact absurd h (by simp)

theorem buildLoop_props (total : Nat)
    (matrices : List (Option String × List Transform)) :
    ∀ (ps : List GPrimitive) (s s2 : Pass2State) (rs : List (Nat × Nat)),
      buildLoop total matrices ps s = .ok (s2, rs) →
      (∀ mkey mid, alookup mkey s.materialCache = some mid →
        alookup mkey s2.materialCache = some mid) ∧
      (∀ ks mid rp, placedIn s.renderPipelines ks mid rp →
        placedIn s2.renderPipelines ks mid rp) ∧
      (RPInv s.renderPipelines → RPInv s2.renderPipelines) ∧
      (∀ p ∈ ps, ∃ mid fcx, alookup (materialKey p) s2.materialCache = some mid ∧
        placedIn s2.renderPipelines (pipelineKey p) mid (mkRenderPrim p fcx))
  | [], s, s2, rs, h => by
    simp only [buildLoop, Except.ok.injEq, Prod.mk.injEq] at h
    rw [← h.1]
    exact ⟨fun _ _ hc => hc, fun _ _ _ hp => hp, fun hi => hi, fun p hp => by simp at hp⟩
  | p :: ps, s, s2, rs, h => by
    simp only [buildLoop] at h
    cases hbs : buildStep total matrices p s with
    | error e => simp only [hbs] at h; exact absurd h (by simp)
    | ok v =>
      obtain ⟨sA, fc⟩ := v
      simp only [hbs] at h
      cases hbl : buildLoop total matrices ps sA with
      | error e => simp only [hbl] at h; exact absurd h (by simp)
      | ok w =>
        obtain ⟨s3, rs2⟩ := w
        simp only [hbl, Except.ok.injEq, Prod.mk.injEq] at h
        obtain ⟨h1, h2⟩ := h
        subst h1
        obtain ⟨nodes, _, _, hsA⟩ := buildStep_inv_full total matrices p s sA fc hbs
        obtain ⟨ihc, ihp, ihi, ihm⟩ := buildLoop_props total matrices ps sA s3 rs2 hbl
        have hcA : ∀ mkey mid, alookup mkey s.materialCache = some mid →
            alookup mkey sA.materialCache = some mid := by
          intro mkey mid hc
          rw [hsA]
          exact matStepLookup_stable p s mkey mid hc
        have hpA : ∀ ks mid rp, placedIn s.renderPipelines ks mid rp →
            placedIn sA.renderPipelines ks mid rp := by
          intro ks mid rp hp
          rw [hsA]
          exact pushToPipeline_placed_old _ _ _ s.renderPipelines ks mid rp hp
        have hiA : RPInv s.renderPipelines → RPInv sA.renderPipelines := by
          intro hi
          rw [hsA]
          exact RPInv_push _ _ _ s.renderPipelines hi
        refine ⟨fun mkey mid hc => ihc mkey mid (hcA mkey mid hc),
          fun ks mid rp hp => ihp ks mid rp (hpA ks mid rp hp),
          fun hi => ihi (hiA hi), ?_⟩
        intro q hq
        rcases List.mem_cons.mp hq with hq1 | hq1
        · subst hq1
          refine ⟨(matStepLookup q s).1, fc, ?_, ?_⟩
          · refine ihc _ _ ?_
            rw [hsA]
            exact matStepLookup_self q s
          · refine ihp _ _ _ ?_
            rw [hsA]
            exact pushToPipeline_placed_new _ _ _ s.renderPipelines
        · exact ihm q hq1

/-- C3: starting from the constructor state (empty render order), if
`build` succeeds and two mesh primitives have byte-identical serialized
material JSON (`materialKey`) and byte-identical serialized pipeline
state (`pipelineKey`, the args plus vertex/fragment shader contexts),
then the render order holds exactly one pipeline entry for that
pipeline key, containing exactly one material entry for that material
object, with both primitives' draw entries (with their instance ranges)
nested under that single pipeline/material pair. -/
theorem build_dedups_material_and_pipeline (meshes : List (List GPrimitive))
    (roots : GNodeList) (st0 st1 : GLTFSceneState) (rs : List (Nat × Nat))
    (p1 p2 : GPrimitive)
    (hfresh : st0.renderPipelines = [])
    (hb : build meshes roots st0 = .ok (st1, rs))
    (hp1 : p1 ∈ meshes.flatten) (hp2 : p2 ∈ meshes.flatten)
    (hmat : materialKey p1 = materialKey p2)
    (hpipe : pipelineKey p1 = pipelineKey p2) :
    ∃ e m, e ∈ st1.renderPipelines ∧ e.key = pipelineKey p1 ∧ m ∈ e.mats ∧
      (∃ fc1, mkRenderPrim p1 fc1 ∈ m.prims) ∧
      (∃ fc2, mkRenderPrim p2 fc2 ∈ m.prims) ∧
      (∀ e2 ∈ st1.renderPipelines, e2.key = pipelineKey p1 → e2 = e) ∧
      (∀ m2 ∈ e.mats, m2.matId = m.matId → m2 = m) := by
  simp only [build] at hb
  cases hbl : buildLoop (nodeListPairs roots).length
      (buildGroups ((nodeListPairs roots).map fun pt => (primKey pt.1, pt.2)))
      meshes.flatten
      { materialCache := [], nextMatId := st0.nextMatId,
        renderPipelines := st0.renderPipelines, offset := 0, buf := fun _ => 0 } with
  | error e => simp only [hbl] at hb; exact absurd hb (by simp)
  | ok w =>
    obtain ⟨s2, rs0⟩ := w
    simp only [hbl, Except.ok.injEq, Prod.mk.injEq] at hb
    obtain ⟨h1, h2⟩ := hb
    obtain ⟨_, _, ihi, ihm⟩ := buildLoop_props _ _ meshes.flatten _ s2 rs0 hbl
    have hInv : RPInv s2.renderPipelines := by
      refine ihi ?_
      simp only [hfresh]
      exact ⟨by simp, by simp⟩
    obtain ⟨mid1, fc1, hc1, hpl1⟩ := ihm p1 hp1
    obtain ⟨mid2, fc2, hc2, hpl2⟩ := ihm p2 hp2
    have hmid : mid1 = mid2 := by
      rw [hmat] at hc1
      exact Option.some.inj (hc1.symm.trans hc2)
    obtain ⟨e1, he1, hkey1, m1, hm1, hmid1, hx1⟩ := hpl1
    obtain ⟨e2, he2, hkey2, m2, hm2, hmid2, hx2⟩ := hpl2
    have hee : e2 = e1 :=
      List.inj_on_of_nodup_map hInv.1 he2 he1 (by rw [hkey1, hkey2, hpipe])
    subst hee
    have hmm : m2 = m1 :=
      List.inj_on_of_nodup_map (hInv.2 e2 he1) hm2 hm1
        (by rw [hmid1, hmid2, hmid])
    subst hmm
    have hrp : st1.renderPipelines = s2.renderPipelines := by rw [← h1]
    rw [hrp]
    refine ⟨e2, m2, he1, hkey1, hm1, ⟨fc1, hx1⟩, ⟨fc2, hx2⟩, ?_, ?_⟩
    · intro e3 he3 hk3
      exact List.inj_on_of_nodup_map hInv.1 he3 he1 (by rw [hk3, hkey1])
    · intro m3 hm3 hk3
      exact List.inj_on_of_nodup_map (hInv.2 e2 he1) hm3 hm1 (by rw [hk3])

/-- C3 applied to the concrete scene: the shared primitive's draw
entries sit under a single pipeline/material pair. -/
theorem build_dedups_material_and_pipeline_witness :
    initialState.renderPipelines = [] ∧
    (∃ e m,
      e ∈ (okState (build demoMeshes demoRoots3 initialState) initialState).renderPipelines ∧
      e.key = pipelineKey demoPrim ∧ m ∈ e.mats ∧
      (∃ fc1, mkRenderPrim demoPrim fc1 ∈ m.prims) ∧
      (∃ fc2, mkRenderPrim demoPrim fc2 ∈ m.prims) ∧
      (∀ e2 ∈ (okState (build demoMeshes demoRoots3 initialState)
          initialState).renderPipelines, e2.key = pipelineKey demoPrim → e2 = e) ∧
      (∀ m2 ∈ e.mats, m2.matId = m.matId → m2 = m)) :=
  ⟨rfl, build_dedups_material_and_pipeline demoMeshes demoRoots3 initialState
    (okState (build demoMeshes demoRoots3 initialState) initialState)
    (okRanges (build demoMeshes demoRoots3 initialState)) demoPrim demoPrim
    rfl rfl (by decide) (by decide) rfl rfl⟩

/-! ## C7: the frame replay -/

theorem primCmds_no_pipeline (rp : RenderPrim) :
    ∀ c ∈ primCmds rp, isSetPipelineCmd c = false := by
  intro c hc
  unfold primCmds at hc
  cases hind : rp.indices with
  | some ic =>
    rw [hind] at hc
    rcases List.mem_append.mp hc with h | h
    · obtain ⟨i, _, hi⟩ := List.mem_map.mp h
      rw [← hi]; rfl
    · rcases h with _ | ⟨_, h⟩
      · rfl
      · rcases h with _ | ⟨_, h⟩
        · rfl
        · cases h
  | none =>
    rw [hind] at hc
    rcases List.mem_append.mp hc with h | h
    · obtain ⟨i, _, hi⟩ := List.mem_map.mp h
      rw [← hi]; rfl
    · rcases h with _ | ⟨_, h⟩
      · rfl
      · cases h

theorem primCmds_no_material (rp : RenderPrim) :
    ∀ c ∈ primCmds rp, isSetMaterialCmd c = false := by
  intro c hc
  unfold primCmds at hc
  cases hind : rp.indices with
  | some ic =>
    rw [hind] at hc
    rcases List.mem_append.mp hc with h | h
    · obtain ⟨i, _, hi⟩ := List.mem_map.mp h
      rw [← hi]; rfl
    · rcases h with _ | ⟨_, h⟩
      · rfl
      · rcases h with _ | ⟨_, h⟩
        · rfl
        · cases h
  | none =>
    rw [hind] at hc
    rcases List.mem_append.mp hc with h | h
    · obtain ⟨i, _, hi⟩ := List.mem_map.mp h
      rw [← hi]; rfl
    · rcases h with _ | ⟨_, h⟩
      · rfl
      · cases h

theorem matCmds_no_pipeline (m : MatEntry) :
    ∀ c ∈ matCmds m, isSetPipelineCmd c = false := by
  intro c hc
  unfold matCmds at hc
  rcases List.mem_cons.mp hc with h | h
  · rw [h]; rfl
  · obtain ⟨l, hl, hcl⟩ := List.mem_flatten.mp h
    obtain ⟨rp, _, hrp⟩ := List.mem_map.mp hl
    rw [← hrp] at hcl
    exact primCmds_no_pipeline rp c hcl

theorem matCmds_countP_material (m : MatEntry) :
    (matCmds m).countP isSetMaterialCmd = 1 := by
  unfold matCmds
  rw [List.countP_cons]
  have h0 : ((m.prims.map primCmds).flatten).countP isSetMaterialCmd = 0 := by
    rw [List.countP_eq_zero]
    intro c hc
    obtain ⟨l, hl, hcl⟩ := List.mem_flatten.mp hc
    obtain ⟨rp, _, hrp⟩ := List.mem_map.mp hl
    rw [← hrp] at hcl
    simp [primCmds_no_material rp c hcl]
  rw [h0]
  rfl

theorem pipeCmds_countP_pipeline (e : PipeEntry) :
    (pipeCmds e).countP isSetPipelineCmd = 1 := by
  unfold pipeCmds
  rw [List.countP_cons]
  have h0 : ((e.mats.map matCmds).flatten).countP isSetPipelineCmd = 0 := by
    rw [List.countP_eq_zero]
    intro c hc
    obtain ⟨l, hl, hcl⟩ := List.mem_flatten.mp hc
    obtain ⟨m, _, hm⟩ := List.mem_map.mp hl
    rw [← hm] at hcl
    simp [matCmds_no_pipeline m c hcl]
  rw [h0]
  rfl

theorem pipeCmds_countP_material (e : PipeEntry) :
    (pipeCmds e).countP isSetMaterialCmd = e.mats.length := by
  unfold pipeCmds
  rw [List.countP_cons]
  have h0 : ∀ ms : List MatEntry,
      ((ms.map matCmds).flatten).countP isSetMaterialCmd = ms.length := by
    intro ms
    induction ms with
    | nil => rfl
    | cons m rest ih =>
      simp only [List.map_cons, List.flatten_cons, List.countP_append, ih,
        matCmds_countP_material, List.length_cons]
      omega
  rw [h0]
  rfl

theorem svb_filter_draw (l : List Nat) :
    (l.map Cmd.setVertexBuffer).filter isDrawCmd = [] := by
  rw [List.filter_eq_nil_iff]
  intro c hc
  obtain ⟨i, _, hi⟩ := List.mem_map.mp hc
  rw [← hi]
  simp [isDrawCmd]

theorem primCmds_filter_draw (rp : RenderPrim) :
    (primCmds rp).filter isDrawCmd = [drawOfEntry rp] := by
  unfold primCmds drawOfEntry
  cases hind : rp.indices with
  | some ic =>
    rw [List.filter_append, svb_filter_draw]
    rfl
  | none =>
    rw [List.filter_append, svb_filter_draw]
    rfl

theorem matCmds_filter_draw (m : MatEntry) :
    (matCmds m).filter isDrawCmd = m.prims.map drawOfEntry := by
  unfold matCmds
  rw [List.filter_cons]
  simp only [isDrawCmd, Bool.false_eq_true, if_false]
  induction m.prims with
  | nil => rfl
  | cons rp rest ih =>
    simp only [List.map_cons, List.flatten_cons, List.filter_append,
      primCmds_filter_draw, ih]
    rfl

theorem pipeCmds_filter_draw (e : PipeEntry) :
    (pipeCmds e).filter isDrawCmd =
      (e.mats.map fun m => m.prims.map drawOfEntry).flatten := by
  unfold pipeCmds
  rw [List.filter_cons]
  simp only [isDrawCmd, Bool.false_eq_true, if_false]
  induction e.mats with
  | nil => rfl
  | cons m rest ih =>
    simp only [List.map_cons, List.flatten_cons, List.filter_append,
      matCmds_filter_draw, ih]

/-- C7: `GLTFScene.render` replays the render order: it binds each
pipeline exactly once (one `setPipeline` per pipeline entry), binds each
material's bind group exactly once under its pipeline (one material
bind-group set per material entry), and the draw calls it issues are
exactly one instanced draw per draw entry — indexed or not — whose
instance range is the entry's `{first, count}` (`instanceCount = count`,
`firstInstance = first`); in particular the concrete scene of 3 nodes
sharing one primitive is drawn with the single instanced draw call
`draw(36, 3, 0, 0)`. -/
theorem render_replays_order :
    (∀ st : GLTFSceneState,
      (render st).countP isSetPipelineCmd = st.renderPipelines.length) ∧
    (∀ st : GLTFSceneState,
      (render st).countP isSetMaterialCmd =
        (st.renderPipelines.map fun e => e.mats.length).sum) ∧
    (∀ st : GLTFSceneState, (render st).filter isDrawCmd = renderDrawsSpec st) ∧
    drawsOf (build demoMeshes demoRoots3 initialState) = some [.draw 36 3 0] := by
  refine ⟨?_, ?_, ?_, by decide⟩
  · intro st
    unfold render
    rw [List.countP_cons]
    simp only [isSetPipelineCmd, Bool.false_eq_true, if_false]
    induction st.renderPipelines with
    | nil => rfl
    | cons e rest ih =>
      simp only [List.map_cons, List.flatten_cons, List.countP_append, ih,
        pipeCmds_countP_pipeline, List.length_cons]
      omega
  · intro st
    unfold render
    rw [List.countP_cons]
    simp only [isSetMaterialCmd, Bool.false_eq_true, if_false]
    induction st.renderPipelines with
    | nil => rfl
    | cons e rest ih =>
      simp only [List.map_cons, List.flatten_cons, List.countP_append, ih,
        pipeCmds_countP_material, List.sum_cons]
      omega
  · intro st
    unfold render renderDrawsSpec
    rw [List.filter_cons]
    simp only [isDrawCmd, Bool.false_eq_true, if_false]
    induction st.renderPipelines with
    | nil => rfl
    | cons e rest ih =>
      simp only [List.map_cons, List.flatten_cons, List.filter_append,
        pipeCmds_filter_draw, ih]

/-! ## C8: loader handling of unsupported modes and attributes -/

/-- C8 (counterexample): a primitive with the unrecognized topology mode
7 makes the mesh-parsing pass of `GLTFLoaderV2.load` throw, aborting the
whole scene build — the second, valid mesh is never produced — rather
than skipping that primitive; and a primitive with an unrecognized
attribute name (`TANGENT`) is not skipped and raises no fault: the
attribute is silently dropped and the primitive is still built. -/
theorem loader_aborts_on_bad_mode :
    loadMeshes c8ShaderLoc c8Acc
      [⟨[⟨some 7, [("POSITION", 0)], none, none⟩]⟩,
       ⟨[⟨some 4, [("POSITION", 0)], none, none⟩]⟩] =
      .error "Unsupported primitive mode 7" ∧
    loadMeshes c8ShaderLoc c8Acc
      [⟨[⟨some 4, [("POSITION", 0), ("TANGENT", 2)], none, none⟩]⟩] =
      .ok [[⟨4, [⟨"POSITION", 0, 0⟩], 8⟩]] :=
  ⟨rfl, rfl⟩

theorem mapExcept_error {A B : Type} (f : A → Except String B) :
    ∀ (xs : List A) (x : A), x ∈ xs → (∃ e, f x = .error e) →
      ∃ e2, mapExcept f xs = .error e2
  | [], x, hx, _ => by simp at hx
  | y :: ys, x, hx, hfe => by
    cases hfy : f y with
    | error e2 => exact ⟨e2, by simp [mapExcept, hfy]⟩
    | ok b =>
      obtain ⟨e, he⟩ := hfe
      rcases List.mem_cons.mp hx with h1 | h1
      · subst h1
        rw [hfy] at he
        cases he
      · obtain ⟨e2, he2⟩ := mapExcept_error f ys x h1 ⟨e, he⟩
        exact ⟨e2, by simp [mapExcept, hfy, he2]⟩

theorem parsePrimitive_bad_mode (sl : String → Option Nat) (ac : Nat → Nat)
    (p : RawPrimitive) (h : validRenderMode (p.mode.getD 4) = false) :
    parsePrimitive sl ac p =
      .error ("Unsupported primitive mode " ++ toString (p.mode.getD 4)) := by
  simp [parsePrimitive, h]

theorem parsePrimitive_ok_eq (sl : String → Option Nat) (ac : Nat → Nat)
    (p : RawPrimitive) (h : validRenderMode (p.mode.getD 4) = true) :
    parsePrimitive sl ac p = .ok
      { topology := p.mode.getD 4,
        attrs := p.attributes.filterMap fun na =>
          (sl na.1).map fun loc => ⟨na.1, loc, na.2⟩,
        vertexCount := (((p.attributes.filterMap fun na =>
            (sl na.1).map fun loc => (⟨na.1, loc, na.2⟩ : ParsedAttr)).find?
            fun a => a.name == "POSITION").map fun a => ac a.accessor).getD 0 } := by
  simp [parsePrimitive, h]

/-- C8 (amended): a primitive with an unrecognized topology mode causes
the whole load to fail with `Unsupported primitive mode ...` (no other
mesh is built); an unrecognized attribute name is silently dropped from
the primitive's attribute list while the primitive itself is still
built, with no fault reported; and a missing `POSITION` attribute is
not fatal — the primitive is built with `vertexCount = 0`. -/
theorem loader_mode_and_attribute_handling :
    (∀ (sl : String → Option Nat) (ac : Nat → Nat) (ms : List RawMesh) (m : RawMesh)
      (p : RawPrimitive), m ∈ ms → p ∈ m.primitives →
      validRenderMode (p.mode.getD 4) = false →
      ∃ e, loadMeshes sl ac ms = .error e) ∧
    (∀ (sl : String → Option Nat) (ac : Nat → Nat) (p : RawPrimitive) (n : String),
      sl n = none → validRenderMode (p.mode.getD 4) = true →
      ∃ pp, parsePrimitive sl ac p = .ok pp ∧ ∀ a ∈ pp.attrs, a.name ≠ n) ∧
    (∀ (sl : String → Option Nat) (ac : Nat → Nat) (p : RawPrimitive),
      validRenderMode (p.mode.getD 4) = true →
      (∀ na ∈ p.attributes, na.1 ≠ "POSITION") →
      ∃ pp, parsePrimitive sl ac p = .ok pp ∧ pp.vertexCount = 0) := by
  refine ⟨?_, ?_, ?_⟩
  · intro sl ac ms m p hm hp hmode
    have hinner : ∃ e, mapExcept (parsePrimitive sl ac) m.primitives = .error e :=
      mapExcept_error _ m.primitives p hp ⟨_, parsePrimitive_bad_mode sl ac p hmode⟩
    exact mapExcept_error _ ms m hm hinner
  · intro sl ac p n hn hmode
    rw [parsePrimitive_ok_eq sl ac p hmode]
    refine ⟨_, rfl, ?_⟩
    intro a ha
    obtain ⟨na, hna, hfa⟩ := List.mem_filterMap.mp ha
    cases hsl : sl na.1 with
    | none =>
      rw [hsl] at hfa
      cases hfa
    | some loc =>
      rw [hsl] at hfa
      simp only [Option.map_some', Option.some.injEq] at hfa
      intro hname
      rw [← hfa] at hname
      have hname2 : na.1 = n := hname
      rw [hname2, hn] at hsl
      cases hsl
  · intro sl ac p hmode hpos
    rw [parsePrimitive_ok_eq sl ac p hmode]
    refine ⟨_, rfl, ?_⟩
    have hfind : ((p.attributes.filterMap fun na =>
        (sl na.1).map fun loc => (⟨na.1, loc, na.2⟩ : ParsedAttr)).find?
        fun a => a.name == "POSITION") = none := by
      rw [List.find?_eq_none]
      intro a ha
      obtain ⟨na, hna, hfa⟩ := List.mem_filterMap.mp ha
      cases hsl : sl na.1 with
      | none =>
        rw [hsl] at hfa
        cases hfa
      | some loc =>
        rw [hsl] at hfa
        simp only [Option.map_some', Option.some.injEq] at hfa
        rw [← hfa]
        intro hx
        exact hpos na hna (eq_of_beq hx)
    rw [hfind]
    rfl

/-- C8 (amended) applied at concrete inputs: mode 7 aborts the load,
the unknown `TANGENT` attribute is dropped with the primitive kept, and
a primitive without `POSITION` parses with vertex count 0. -/
theorem loader_mode_and_attribute_handling_witness :
    (validRenderMode (((⟨some 7, [("POSITION", 0)], none, none⟩ :
        RawPrimitive)).mode.getD 4) = false ∧
      ∃ e, loadMeshes c8ShaderLoc c8Acc
        [⟨[⟨some 7, [("POSITION", 0)], none, none⟩]⟩] = .error e) ∧
    (c8ShaderLoc "TANGENT" = none ∧
      ∃ pp, parsePrimitive c8ShaderLoc c8Acc
          ⟨some 4, [("POSITION", 0), ("TANGENT", 2)], none, none⟩ = .ok pp ∧
        ∀ a ∈ pp.attrs, a.name ≠ "TANGENT") ∧
    (∃ pp, parsePrimitive c8ShaderLoc c8Acc ⟨some 4, [("NORMAL", 1)], none, none⟩ =
        .ok pp ∧ pp.vertexCount = 0) :=
  ⟨⟨by decide, loader_mode_and_attribute_handling.1 c8ShaderLoc c8Acc
      [⟨[⟨some 7, [("POSITION", 0)], none, none⟩]⟩]
      ⟨[⟨some 7, [("POSITION", 0)], none, none⟩]⟩
      ⟨some 7, [("POSITION", 0)], none, none⟩ (by decide) (by decide) (by decide)⟩,
   ⟨by decide, loader_mode_and_attribute_handling.2.1 c8ShaderLoc c8Acc
      ⟨some 4, [("POSITION", 0), ("TANGENT", 2)], none, none⟩ "TANGENT"
      (by decide) (by decide)⟩,
   loader_mode_and_attribute_handling.2.2 c8ShaderLoc c8Acc
      ⟨some 4, [("NORMAL", 1)], none, none⟩ (by decide) (by decide)⟩

end GLTF
